import Mathlib

/-!
Verification of the peripheral-emulation fabric of an STM32 emulator.

Each definition is a shallow embedding of the corresponding Rust item,
keeping its name and structure.  Machine integers (`u8`, `u16`, `u32`,
`u64`) are modelled as `Nat` with explicit `% 2^w` (or `&&&` masks) at
the points where the source truncates; `Option` models panics
(failed `assert!`).
-/

namespace Dma

/-- One DMA stream's register shadow (`struct Stream` in
`peripherals/dma.rs`).  All registers are `u32`. -/
structure Stream where
  cr : Nat
  next_cr : Option Nat
  ndtr : Nat
  par : Nat
  m0ar : Nat
  m1ar : Nat
  fcr : Nat
deriving Repr, DecidableEq

/-- `Stream::default()`: all registers zeroed, no staged CR. -/
def Stream.default : Stream :=
  { cr := 0, next_cr := none, ndtr := 0, par := 0, m0ar := 0, m1ar := 0, fcr := 0 }

/-- Transfer direction, decoded from CR bits 7..6 (`Stream::dir`). -/
inductive Dir where
  | Read | Write | MemCopy | Invalid
deriving Repr, DecidableEq

/-- `Stream::dir`: `(cr >> 6) & 0b11` decoded to a direction. -/
def Stream.dir (s : Stream) : Dir :=
  match (s.cr >>> 6) &&& 0b11 with
  | 0b00 => .Read
  | 0b01 => .Write
  | 0b10 => .MemCopy
  | _ => .Invalid

/-- `Stream::word_size`: CR bits 12..11 decoded to 1, 2 or 4 bytes. -/
def Stream.word_size (s : Stream) : Nat :=
  match (s.cr >>> 11) &&& 0b11 with
  | 0b00 => 1
  | 0b01 => 2
  | 0b10 => 4
  | _ => 1

/-- `Stream::data_size`: total transfer size in bytes. -/
def Stream.data_size (s : Stream) : Nat :=
  s.word_size * s.ndtr

/-- `Stream::read`.  Returns the read value and the successor state.
The CR read (offset 0) promotes the staged `next_cr` after capturing the
current value, and re-stages a toggled CR for the zero-length
memory→peripheral busy-wait workaround. -/
def Stream.read (s : Stream) (offset : Nat) : Nat × Stream :=
  match offset with
  | 0x0000 =>
    let v := s.cr
    let s := match s.next_cr with
      | some next_cr => { s with cr := next_cr, next_cr := none }
      | none => s
    let s := if s.dir = Dir.Write ∧ s.data_size = 0 then
        { s with next_cr := some (s.cr ^^^ 1) }
      else s
    (v, s)
  | 0x0004 => (s.ndtr, s)
  | 0x0008 => (s.par, s)
  | 0x000c => (s.m0ar, s)
  | 0x0010 => (s.m1ar, s)
  | 0x0014 => (s.fcr, s)
  | _ => (0, s)

/-- `Stream::write`.  A CR write with the enable bit set performs the
transfer (`do_xfer`, which moves bytes between peripheral and CPU memory
but never touches the stream's own registers, so it is invisible here),
then zeroes NDTR and stages CR with the enable bit cleared. -/
def Stream.write (s : Stream) (offset value : Nat) : Stream :=
  match offset with
  | 0x0000 =>
    let s := { s with cr := value }
    if value &&& 1 ≠ 0 then
      { s with ndtr := 0, next_cr := some (value &&& 0xFFFFFFFE) }
    else s
  | 0x0004 => { s with ndtr := value &&& 0xFFFF }
  | 0x0008 => { s with par := value }
  | 0x000c => { s with m0ar := value }
  | 0x0010 => { s with m1ar := value }
  | 0x0014 => { s with fcr := value }
  | _ => s

/-- A register access to one stream: either a read of some offset or a
write of a value to some offset. -/
inductive Op where
  | read (offset : Nat)
  | write (offset : Nat) (value : Nat)
deriving Repr, DecidableEq

/-- Apply one access to a stream, discarding read results. -/
def Stream.step (s : Stream) : Op → Stream
  | .read offset => (s.read offset).2
  | .write offset value => s.write offset value

/-- Apply a sequence of accesses to a stream. -/
def Stream.run (s : Stream) (ops : List Op) : Stream :=
  ops.foldl Stream.step s

end Dma

namespace Usart

/-- The USART peripheral state used by `Usart::read`/`write`
(`struct UsartInner` in `peripherals/usart.rs`): the TX and RX byte
queues.  The bound device is irrelevant to reads. -/
structure UsartInner where
  tx : List Nat
  rx : List Nat
deriving Repr, DecidableEq

/-- `Usart::read` (`impl Peripheral for Usart` in `peripherals/usart.rs`):
offset 0x04 (DR) pops the RX queue (0 when empty); every other offset,
including 0x00 (SR), returns 0. -/
def read (u : UsartInner) (offset : Nat) : Nat × UsartInner :=
  match offset with
  | 0x0004 =>
    match u.rx with
    | b :: rest => (b, { u with rx := rest })
    | [] => (0, u)
  | _ => (0, u)

end Usart

namespace Dma

/-- A read never changes the stored NDTR register. -/
theorem Stream.read_ndtr (s : Stream) (offset : Nat) :
    ((s.read offset).2).ndtr = s.ndtr := by
  unfold Stream.read
  split
  · dsimp only
    cases s.next_cr <;> dsimp only <;> split <;> rfl
  all_goals rfl

/-- One access preserves `ndtr ≤ 0xFFFF`. -/
theorem Stream.step_ndtr_le (s : Stream) (op : Op) (h : s.ndtr ≤ 0xFFFF) :
    (s.step op).ndtr ≤ 0xFFFF := by
  cases op with
  | read offset => rw [Stream.step, Stream.read_ndtr]; exact h
  | write offset value =>
    rw [Stream.step]
    unfold Stream.write
    split
    · dsimp only
      split
      · simpa using h
      · simpa using h
    · simp only
      exact Nat.le_trans (Nat.and_le_right) (by norm_num)
    all_goals simpa using h

/-- Running any access sequence preserves `ndtr ≤ 0xFFFF`. -/
theorem Stream.run_ndtr_le (ops : List Op) (s : Stream) (h : s.ndtr ≤ 0xFFFF) :
    (s.run ops).ndtr ≤ 0xFFFF := by
  induction ops generalizing s with
  | nil => exact h
  | cons op rest ih => exact ih _ (s.step_ndtr_le op h)

end Dma

/-- C10: starting from the zeroed stream, after any sequence of register
reads and writes the stored NDTR value is at most 0xFFFF; a write to the
NDTR register (offset 0x04) keeps only the low 16 bits; a CR write with
the enable bit set resets NDTR to 0; hence a triggered transfer moves
`data_size = word_size * ndtr ≤ word_size * 0xFFFF` bytes. -/
theorem dma_ndtr_invariant (ops : List Dma.Op) :
    (Dma.Stream.run Dma.Stream.default ops).ndtr ≤ 0xFFFF ∧
    (∀ (s : Dma.Stream) (v : Nat), (s.write 0x0004 v).ndtr = v &&& 0xFFFF) ∧
    (∀ (s : Dma.Stream) (v : Nat),
      (s.write 0x0000 v).ndtr = if v &&& 1 ≠ 0 then 0 else s.ndtr) ∧
    (Dma.Stream.run Dma.Stream.default ops).data_size ≤
      (Dma.Stream.run Dma.Stream.default ops).word_size * 0xFFFF := by
  have hrun : (Dma.Stream.run Dma.Stream.default ops).ndtr ≤ 0xFFFF :=
    Dma.Stream.run_ndtr_le ops _ (by decide)
  refine ⟨hrun, fun s v => rfl, fun s v => ?_, ?_⟩
  · unfold Dma.Stream.write
    dsimp only
    split <;> rfl
  · exact Nat.mul_le_mul_left _ hrun

/-- C3 counterexample: write CR = 17 (enable bit set) to a zeroed stream.
NDTR is zeroed and CR = 16 is staged, but the next (first) CR read
returns 17 — the written value with the enable bit still set — not the
staged value 16 the claim promises. -/
theorem dma_cr_read_counterexample :
    (Dma.Stream.write Dma.Stream.default 0 17).ndtr = 0 ∧
    (Dma.Stream.write Dma.Stream.default 0 17).next_cr = some 16 ∧
    ((Dma.Stream.write Dma.Stream.default 0 17).read 0).1 = 17 ∧
    ((Dma.Stream.write Dma.Stream.default 0 17).read 0).1 ≠ 16 := by
  decide

/-- C3 (amended): after a CR write with the enable bit set, NDTR reads
as 0 and CR with the enable bit cleared is staged; the first subsequent
CR read still returns the written value (enable bit set), and the
second CR read returns the staged value with the enable bit cleared. -/
theorem dma_cr_enable_staging (s : Dma.Stream) (v : Nat) (h : v &&& 1 ≠ 0) :
    ((s.write 0 v).read 0x0004).1 = 0 ∧
    (s.write 0 v).next_cr = some (v &&& 0xFFFFFFFE) ∧
    (v &&& 0xFFFFFFFE) &&& 1 = 0 ∧
    ((s.write 0 v).read 0).1 = v ∧
    ((((s.write 0 v).read 0).2).read 0).1 = v &&& 0xFFFFFFFE := by
  have hw : s.write 0 v =
      { s with cr := v, ndtr := 0, next_cr := some (v &&& 0xFFFFFFFE) } := by
    unfold Dma.Stream.write
    dsimp only
    rw [if_pos h]
  have hand : (v &&& 0xFFFFFFFE) &&& 1 = 0 := by
    rw [Nat.and_assoc]
    norm_num
  refine ⟨by rw [hw]; rfl, by rw [hw], hand, ?_, ?_⟩
  · rw [hw]; rfl
  · rw [hw]
    show ((Dma.Stream.read _ 0).2.read 0).1 = v &&& 0xFFFFFFFE
    unfold Dma.Stream.read
    dsimp only
    split <;> rfl

/-- C3 amended-claim witness at CR value 17 on the zeroed stream. -/
theorem dma_cr_enable_staging_witness :
    ((Dma.Stream.write Dma.Stream.default 0 17).read 0x0004).1 = 0 ∧
    (Dma.Stream.write Dma.Stream.default 0 17).next_cr = some (17 &&& 0xFFFFFFFE) ∧
    (17 &&& 0xFFFFFFFE) &&& 1 = 0 ∧
    ((Dma.Stream.write Dma.Stream.default 0 17).read 0).1 = 17 ∧
    ((((Dma.Stream.write Dma.Stream.default 0 17).read 0).2).read 0).1 =
      17 &&& 0xFFFFFFFE :=
  dma_cr_enable_staging Dma.Stream.default 17 (by decide)

/-- C4 counterexample: on this revision's USART model, reading SR
(offset 0x00) returns 0, not `(1<<7)|(1<<6)|(1<<5)|(1<<4)`. -/
theorem usart_sr_counterexample :
    (Usart.read ⟨[], []⟩ 0x0000).1 = 0 ∧
    (Usart.read ⟨[], []⟩ 0x0000).1 ≠
      ((1 <<< 7) ||| (1 <<< 6) ||| (1 <<< 5) ||| (1 <<< 4) : Nat) := by
  decide

/-- C4 (amended): for every USART state and regardless of prior
operations, a read of the SR register at offset 0x00 returns 0 — no
status flags are synthesised; only DR (offset 0x04) returns data. -/
theorem usart_sr_reads_zero (u : Usart.UsartInner) :
    (Usart.read u 0x0000).1 = 0 := rfl

namespace Peripherals

/-- A peripheral slot (`struct PeripheralSlot` in `peripherals/mod.rs`).
`endAddr` models the Rust field `end` (a Lean keyword).  The peripheral
itself is modelled as a plain register file `regs` mapping a register
offset to its stored 32-bit word, i.e. a peripheral whose `read` returns
exactly what `write` stored — the "reads back its stored value"
peripheral the claims quantify over. -/
structure Slot where
  start : Nat
  endAddr : Nat
  regs : Nat → Nat

/-- `Peripherals::bitbanding`: addresses in `[0x4200_0000, 0x4400_0000)`
resolve to `(base, bit)` with `base = 0x4000_0000 + (addr - 0x4200_0000)/32`
and `bit = (addr % 32)/4`. -/
def bitbanding (addr : Nat) : Option (Nat × Nat) :=
  if 0x42000000 ≤ addr ∧ addr < 0x44000000 then
    some (0x40000000 + (addr - 0x42000000) / 32, (addr % 32) / 4)
  else
    none

/-- `Peripherals::is_register`: everything outside the FSMC data banks
`[0x6000_0000, 0xA000_0000)`. -/
def is_register (addr : Nat) : Bool :=
  ! (decide (0x60000000 ≤ addr) && decide (addr < 0xA0000000))

/-- `Peripherals::align_addr_4`: aligned address and byte offset. -/
def align_addr_4 (addr : Nat) : Nat × Nat :=
  (addr - addr % 4, addr % 4)

/-- The slot index selected by `Peripherals::get_peripheral`.
`binary_search_by_key(&addr, |p| p.start)` on a list sorted by strictly
increasing `start` returns `Ok(i)` when `start_i = addr` and `Err(j)`
with `j` the insertion point otherwise; `map_or_else(checked_sub(1), Some)`
turns both into "the last index whose `start ≤ addr`", i.e.
`countP (start ≤ addr) - 1`, and `None` when no start is ≤ addr.  The
found slot is kept only if `addr ≤ slot.end` (note: inclusive). -/
def get_peripheral_index (slots : List Slot) (addr : Nat) : Option Nat :=
  let i := slots.countP (fun p => decide (p.start ≤ addr))
  if i = 0 then
    none
  else
    match slots.get? (i - 1) with
    | some p => if addr ≤ p.endAddr then some (i - 1) else none
    | none => none

/-- `Peripherals::get_peripheral`: the selected slot, if any. -/
def get_peripheral (slots : List Slot) (addr : Nat) : Option Slot :=
  (get_peripheral_index slots addr).bind slots.get?

/-- The non-bit-band body of `Peripherals::read`: align register-space
accesses down to 4 bytes, check the `byte_offset + size ≤ 4` assertion
(`none` models the panic), dispatch, and shift the peripheral's word
left by `8 * byte_offset` (truncated to `u32`), 0 if no slot covers the
address. -/
def read_base (slots : List Slot) (addr size : Nat) : Option Nat :=
  let ap := if is_register addr then align_addr_4 addr else (addr, 0)
  if ap.2 + size ≤ 4 then
    some (match get_peripheral slots ap.1 with
      | some p => (p.regs (ap.1 - p.start) <<< (8 * ap.2)) % 2 ^ 32
      | none => 0)
  else
    none

/-- `Peripherals::read`.  The bit-band branch recurses on the base
address, which is never itself a bit-band alias (it lies in
`[0x4000_0000, 0x4010_0000)`), so the recursive call is written as the
non-bit-band body `read_base`. -/
def read (slots : List Slot) (addr size : Nat) : Option Nat :=
  match bitbanding addr with
  | some (addr, bit_number) =>
    (read_base slots addr 1).map (fun v => (v >>> bit_number) &&& 1)
  | none => read_base slots addr size

/-- The non-bit-band body of `Peripherals::write`: align register-space
accesses, check the assertion, merge a sub-word value with a 4-byte read
back (`value = (value << 8*off) | (v & (0xFFFF_FFFF >> (32 - 8*off)))`),
and store the resulting word into the covering slot's register file (a
missed dispatch drops the write). -/
def write_base (slots : List Slot) (addr size value : Nat) : Option (List Slot) :=
  let ap := if is_register addr then align_addr_4 addr else (addr, 0)
  if ap.2 + size ≤ 4 then
    (if ap.2 ≠ 0 then
      (read_base slots ap.1 4).map (fun v =>
        ((value <<< (8 * ap.2)) |||
          (v &&& (0xFFFFFFFF >>> (32 - 8 * ap.2)))) % 2 ^ 32)
    else
      some value).map (fun value =>
      match get_peripheral_index slots ap.1 with
      | some i =>
        match slots.get? i with
        | some p =>
          slots.set i
            { p with regs := fun off =>
                if off = ap.1 - p.start then value else p.regs off }
        | none => slots
      | none => slots)
  else
    none

/-- `Peripherals::write`.  The bit-band branch reads the base address,
masks with `1 << bit_number` (the source's `v &= 1 << bit_number`, with
no negation), ORs in `(value & 1) << bit_number` and writes back; as in
`read`, the recursive calls on the base address are the non-bit-band
bodies. -/
def write (slots : List Slot) (addr size value : Nat) : Option (List Slot) :=
  match bitbanding addr with
  | some (addr, bit_number) =>
    (read_base slots addr 1).bind (fun v =>
      write_base slots addr 1
        ((v &&& (1 <<< bit_number)) ||| ((value &&& 1) <<< bit_number)))
  | none => write_base slots addr size value

end Peripherals

/-- C1: the bit-band write is not a single-bit read-modify-write.  The
source masks the read-back byte with `v &= 1 << bit_number` (instead of
`v &= !(1 << bit_number)`), so (a) writing bit 0 := 1 to a base byte
holding 0b110 clobbers the other bits — the stored word becomes 1, not
0b111 — and (b) writing v = 0 cannot clear a set bit: after writing 0
via the alias of a byte holding 1, reading via the alias still returns
1, refuting the idempotence consequence. -/
theorem bitband_write_bug_eval :
    ((Peripherals.write
        [⟨0x40000000, 0x40000400, fun off => if off = 0 then 6 else 0⟩]
        0x42000000 4 1).bind
      (fun s => Peripherals.read s 0x40000000 4) = some 1 ∧
      (1 : Nat) ≠ 7) ∧
    ((Peripherals.write
        [⟨0x40000000, 0x40000400, fun off => if off = 0 then 1 else 0⟩]
        0x42000000 4 0).bind
      (fun s => Peripherals.read s 0x42000000 4) = some 1 ∧
      (1 : Nat) ≠ 0) := by
  decide

namespace Peripherals

/-- The registry invariant established by `finish_registration`: slots
are sorted by start and disjoint (`p1.end < p2.start` for consecutive
slots, here strengthened to all pairs, which follows for nonempty
ranges), and each slot's range is nonempty. -/
def SlotsWellFormed (slots : List Slot) : Prop :=
  (∀ p ∈ slots, p.start ≤ p.endAddr) ∧
  slots.Pairwise (fun a b => a.endAddr < b.start)

/-- If slot `i` of a well-formed registry covers `addr`
(end-inclusively), then exactly the slots `0..i` have `start ≤ addr`. -/
theorem countP_start_le_of_contains (slots : List Slot) (addr : Nat)
    (hwf : SlotsWellFormed slots) (i : Nat) (hi : i < slots.length)
    (h1 : slots[i].start ≤ addr) (h2 : addr ≤ slots[i].endAddr) :
    slots.countP (fun p => decide (p.start ≤ addr)) = i + 1 := by
  have hpw := List.pairwise_iff_getElem.mp hwf.2
  conv_lhs => rw [← List.take_append_drop i slots]
  rw [List.countP_append, List.drop_eq_getElem_cons hi,
    List.countP_cons_of_pos _ _ (by simpa using h1)]
  have htake : (slots.take i).countP (fun p => decide (p.start ≤ addr)) =
      (slots.take i).length := by
    rw [List.countP_eq_length]
    intro a ha
    obtain ⟨j, hj, rfl⟩ := List.mem_iff_getElem.mp ha
    rw [List.getElem_take]
    have hj' : j < i := by
      have := hj
      rw [List.length_take] at this
      omega
    have hjlen : j < slots.length := by omega
    have hmem : slots[j] ∈ slots := List.getElem_mem hjlen
    have hse : slots[j].endAddr < slots[i].start := hpw j i hjlen hi hj'
    simpa using Nat.le_trans (Nat.le_trans (hwf.1 _ hmem) (Nat.le_of_lt hse)) h1
  have hdrop : (slots.drop (i + 1)).countP (fun p => decide (p.start ≤ addr)) = 0 := by
    rw [List.countP_eq_zero]
    intro a ha
    obtain ⟨j, hj, rfl⟩ := List.mem_iff_getElem.mp ha
    rw [List.getElem_drop]
    have hj' : i + 1 + j < slots.length := by
      have := hj
      rw [List.length_drop] at this
      omega
    have hlt : slots[i].endAddr < slots[i + 1 + j].start :=
      hpw i (i + 1 + j) hi hj' (by omega)
    simp only [decide_eq_true_eq]
    omega
  rw [htake, hdrop, List.length_take]
  omega

/-- Selection: a well-formed registry dispatches `addr` to the slot
whose (end-inclusive) range contains it. -/
theorem get_peripheral_of_contains (slots : List Slot) (addr : Nat)
    (hwf : SlotsWellFormed slots) (i : Nat) (hi : i < slots.length)
    (h1 : slots[i].start ≤ addr) (h2 : addr ≤ slots[i].endAddr) :
    get_peripheral_index slots addr = some i ∧
    get_peripheral slots addr = some slots[i] := by
  have hc := countP_start_le_of_contains slots addr hwf i hi h1 h2
  have hidx : get_peripheral_index slots addr = some i := by
    unfold get_peripheral_index
    rw [hc]
    simp only [Nat.add_sub_cancel, Nat.add_one_ne_zero, if_false]
    rw [List.get?_eq_getElem?, List.getElem?_eq_getElem hi]
    show (if addr ≤ slots[i].endAddr then some i else none) = some i
    rw [if_pos h2]
  refine ⟨hidx, ?_⟩
  unfold get_peripheral
  rw [hidx]
  simp [List.get?_eq_getElem?, List.getElem?_eq_getElem hi]

/-- If no slot's end-inclusive range contains `addr`, dispatch finds
nothing. -/
theorem get_peripheral_index_none (slots : List Slot) (addr : Nat)
    (hwf : SlotsWellFormed slots)
    (hnone : ∀ p ∈ slots, ¬ (p.start ≤ addr ∧ addr ≤ p.endAddr)) :
    get_peripheral_index slots addr = none := by
  have hpw := List.pairwise_iff_getElem.mp hwf.2
  unfold get_peripheral_index
  by_cases hc : slots.countP (fun p => decide (p.start ≤ addr)) = 0
  · simp [hc]
  · set c := slots.countP (fun p => decide (p.start ≤ addr)) with hcdef
    have hcle : c ≤ slots.length := List.countP_le_length _
    have hclen : c - 1 < slots.length := by omega
    have hstart : slots[c - 1].start ≤ addr := by
      by_contra hnp
      have hdrop : (slots.drop (c - 1)).countP (fun p => decide (p.start ≤ addr)) = 0 := by
        rw [List.countP_eq_zero]
        intro a ha
        obtain ⟨j, hj, rfl⟩ := List.mem_iff_getElem.mp ha
        rw [List.getElem_drop]
        have hj' : c - 1 + j < slots.length := by
          have := hj
          rw [List.length_drop] at this
          omega
        simp only [decide_eq_true_eq]
        intro hst
        rcases Nat.eq_zero_or_pos j with hj0 | hjpos
        · subst hj0
          exact hnp (by simpa using hst)
        · have hlt : slots[c - 1].endAddr < slots[c - 1 + j].start :=
            hpw (c - 1) (c - 1 + j) hclen hj' (by omega)
          have hmem : slots[c - 1] ∈ slots := List.getElem_mem hclen
          exact hnp (Nat.le_trans (Nat.le_trans (hwf.1 _ hmem) (Nat.le_of_lt hlt)) hst)
      have hsplit : c = (slots.take (c - 1)).countP (fun p => decide (p.start ≤ addr)) := by
        conv_lhs => rw [hcdef, ← List.take_append_drop (c - 1) slots]
        rw [List.countP_append, hdrop, Nat.add_zero]
      have : c ≤ c - 1 := by
        rw [hsplit]
        exact Nat.le_trans (List.countP_le_length _) (by rw [List.length_take]; omega)
      omega
    have hend : ¬ addr ≤ slots[c - 1].endAddr := by
      intro hle
      exact hnone _ (List.getElem_mem hclen) ⟨hstart, hle⟩
    rw [if_neg hc, List.get?_eq_getElem?, List.getElem?_eq_getElem hclen]
    show (if addr ≤ slots[c - 1].endAddr then some (c - 1) else none) = none
    rw [if_neg hend]

/-- If no slot's end-inclusive range contains `addr`, `get_peripheral`
returns `none`. -/
theorem get_peripheral_none (slots : List Slot) (addr : Nat)
    (hwf : SlotsWellFormed slots)
    (hnone : ∀ p ∈ slots, ¬ (p.start ≤ addr ∧ addr ≤ p.endAddr)) :
    get_peripheral slots addr = none := by
  unfold get_peripheral
  rw [get_peripheral_index_none slots addr hwf hnone]
  rfl

/-- Aligning a register-space address keeps it in register space. -/
theorem is_register_align (addr : Nat) (h : is_register addr = true) :
    is_register (addr - addr % 4) = true := by
  unfold is_register at *
  simp only [Bool.not_eq_true', Bool.and_eq_false_iff, decide_eq_false_iff_not,
    Nat.not_le, Nat.not_lt] at *
  omega

/-- An aligned register-space read that dispatches to no slot returns 0. -/
theorem read_base_aligned_miss (slots : List Slot) (a : Nat)
    (hwf : SlotsWellFormed slots) (hreg : is_register a = true) (ha : a % 4 = 0)
    (hnone : ∀ p ∈ slots, ¬ (p.start ≤ a ∧ a ≤ p.endAddr)) :
    read_base slots a 4 = some 0 := by
  unfold read_base
  rw [hreg]
  simp only [if_true]
  unfold align_addr_4
  rw [ha, Nat.sub_zero]
  rw [if_pos (by omega)]
  rw [get_peripheral_none slots a hwf hnone]

/-- A non-bit-band access that no slot covers: the read returns 0 and
the write leaves the registry unchanged. -/
theorem access_miss (slots : List Slot) (addr size value : Nat)
    (hwf : SlotsWellFormed slots)
    (hbb : bitbanding addr = none)
    (hnone : ∀ p ∈ slots,
      ¬ (p.start ≤ (if is_register addr then align_addr_4 addr else (addr, 0)).1 ∧
         (if is_register addr then align_addr_4 addr else (addr, 0)).1 ≤ p.endAddr))
    (hsz : (if is_register addr then align_addr_4 addr else (addr, 0)).2 + size ≤ 4) :
    read slots addr size = some 0 ∧ write slots addr size value = some slots := by
  have hidx := get_peripheral_index_none slots _ hwf hnone
  constructor
  · unfold read
    rw [hbb]
    unfold read_base
    rw [if_pos hsz, get_peripheral_none slots _ hwf hnone]
  · unfold write
    rw [hbb]
    unfold write_base
    rw [if_pos hsz]
    by_cases hreg : is_register addr = true
    · rw [if_pos hreg] at hnone hsz hidx ⊢
      by_cases hoff : (align_addr_4 addr).2 = 0
      · rw [if_neg (by omega)]
        simp only [Option.map_some']
        rw [hidx]
      · rw [if_pos hoff]
        have hmiss : read_base slots (align_addr_4 addr).1 4 = some 0 := by
          apply read_base_aligned_miss slots _ hwf
          · exact is_register_align addr hreg
          · unfold align_addr_4
            omega
          · exact hnone
        rw [hmiss]
        simp only [Option.map_some']
        rw [hidx]
    · rw [if_neg hreg] at hnone hsz hidx ⊢
      rw [if_neg (by simp)]
      simp only [Option.map_some']
      rw [hidx]

end Peripherals

/-- C5 counterexample: the code's containment test is `addr <= p.end`,
end-INCLUSIVE.  For a one-slot registry `[0x4000_0000, 0x4000_0400]`
holding 5 in every register, the address 0x4000_0400 is contained in no
slot under the claim's strict containment `start ≤ addr < end`, yet
dispatch still selects slot 0 and the read returns 5, not 0. -/
theorem slot_dispatch_counterexample :
    Peripherals.SlotsWellFormed [⟨0x40000000, 0x40000400, fun _ => 5⟩] ∧
    (∀ p ∈ ([⟨0x40000000, 0x40000400, fun _ => 5⟩] : List Peripherals.Slot),
      ¬ (p.start ≤ 0x40000400 ∧ (0x40000400 : Nat) < p.endAddr)) ∧
    Peripherals.get_peripheral_index
      [⟨0x40000000, 0x40000400, fun _ => 5⟩] 0x40000400 = some 0 ∧
    Peripherals.read
      [⟨0x40000000, 0x40000400, fun _ => 5⟩] 0x40000400 4 = some 5 ∧
    (5 : Nat) ≠ 0 := by
  constructor
  · constructor
    · intro p hp
      simp only [List.mem_singleton] at hp
      subst hp
      decide
    · exact List.pairwise_singleton _ _
  · refine ⟨?_, by decide, by decide, by decide⟩
    intro p hp
    simp only [List.mem_singleton] at hp
    subst hp
    decide

/-- C5 (amended): for a well-formed (sorted, disjoint) registry,
dispatch selects exactly the slot whose END-INCLUSIVE range
`start ≤ addr ≤ end` contains the address; when no slot's inclusive
range contains the (alignment-transformed) address, a read returns 0
and a write is dropped, leaving every slot unchanged. -/
theorem slot_dispatch_total (slots : List Peripherals.Slot)
    (addr size value : Nat) (hwf : Peripherals.SlotsWellFormed slots) :
    (∀ (i : Nat) (hi : i < slots.length),
        slots[i].start ≤ addr → addr ≤ slots[i].endAddr →
        Peripherals.get_peripheral slots addr = some slots[i]) ∧
    ((∀ p ∈ slots, ¬ (p.start ≤ addr ∧ addr ≤ p.endAddr)) →
        Peripherals.get_peripheral slots addr = none) ∧
    (Peripherals.bitbanding addr = none →
      (∀ p ∈ slots,
        ¬ (p.start ≤ (if Peripherals.is_register addr then
              Peripherals.align_addr_4 addr else (addr, 0)).1 ∧
           (if Peripherals.is_register addr then
              Peripherals.align_addr_4 addr else (addr, 0)).1 ≤ p.endAddr)) →
      (if Peripherals.is_register addr then
          Peripherals.align_addr_4 addr else (addr, 0)).2 + size ≤ 4 →
      Peripherals.read slots addr size = some 0 ∧
      Peripherals.write slots addr size value = some slots) :=
  ⟨fun i hi h1 h2 =>
      (Peripherals.get_peripheral_of_contains slots addr hwf i hi h1 h2).2,
   fun h => Peripherals.get_peripheral_none slots addr hwf h,
   fun hbb hnone hsz =>
      Peripherals.access_miss slots addr size value hwf hbb hnone hsz⟩

/-- C5 witness: the dispatch theorem applied to a concrete one-slot
registry at address 0x4000_0100. -/
theorem slot_dispatch_total_witness :
    (∀ (i : Nat) (hi : i < ([⟨0x40000000, 0x40000400, fun _ => 5⟩] :
          List Peripherals.Slot).length),
        ([⟨0x40000000, 0x40000400, fun _ => 5⟩] :
          List Peripherals.Slot)[i].start ≤ 0x40000100 →
        (0x40000100 : Nat) ≤ ([⟨0x40000000, 0x40000400, fun _ => 5⟩] :
          List Peripherals.Slot)[i].endAddr →
        Peripherals.get_peripheral
          [⟨0x40000000, 0x40000400, fun _ => 5⟩] 0x40000100 =
          some ([⟨0x40000000, 0x40000400, fun _ => 5⟩] :
            List Peripherals.Slot)[i]) ∧
    ((∀ p ∈ ([⟨0x40000000, 0x40000400, fun _ => 5⟩] : List Peripherals.Slot),
        ¬ (p.start ≤ 0x40000100 ∧ (0x40000100 : Nat) ≤ p.endAddr)) →
        Peripherals.get_peripheral
          [⟨0x40000000, 0x40000400, fun _ => 5⟩] 0x40000100 = none) ∧
    (Peripherals.bitbanding 0x40000100 = none →
      (∀ p ∈ ([⟨0x40000000, 0x40000400, fun _ => 5⟩] : List Peripherals.Slot),
        ¬ (p.start ≤ (if Peripherals.is_register 0x40000100 then
              Peripherals.align_addr_4 0x40000100 else (0x40000100, 0)).1 ∧
           (if Peripherals.is_register 0x40000100 then
              Peripherals.align_addr_4 0x40000100 else (0x40000100, 0)).1 ≤
             p.endAddr)) →
      (if Peripherals.is_register 0x40000100 then
          Peripherals.align_addr_4 0x40000100 else (0x40000100, 0)).2 + 4 ≤ 4 →
      Peripherals.read [⟨0x40000000, 0x40000400, fun _ => 5⟩] 0x40000100 4 =
        some 0 ∧
      Peripherals.write [⟨0x40000000, 0x40000400, fun _ => 5⟩]
        0x40000100 4 7 = some [⟨0x40000000, 0x40000400, fun _ => 5⟩]) :=
  slot_dispatch_total [⟨0x40000000, 0x40000400, fun _ => 5⟩] 0x40000100 4 7
    ⟨by
      intro p hp
      simp only [List.mem_singleton] at hp
      subst hp
      decide,
     List.pairwise_singleton _ _⟩

namespace DisplayDev

/-- Display configuration (`struct DisplayConfig` in
`ext_devices/display.rs`); `width`/`height` are `u16`, `cmd_addr_bit`
is `u32`, `swap_bytes` is `Option<bool>` already collapsed with
`unwrap_or_default`. -/
structure DisplayConfig where
  width : Nat
  height : Nat
  cmd_addr_bit : Nat
  swap_bytes : Bool

/-- `util::Rect`: the draw region. -/
structure Rect where
  left : Nat
  top : Nat
  right : Nat
  bottom : Nat

/-- `util::Point`: the drawing cursor. -/
structure Point where
  x : Nat
  y : Nat

/-- `struct Display`, restricted to the fields its state machine reads
and writes.  `framebuffer_raw` is the pixel store; `trace` records, in
order, every index `x + y*width` passed to the framebuffer by
`draw_pixel` (the observation the framebuffer-bounds claim is about).
The SDL canvas/surface mirror of the framebuffer and the redraw
throttling touch no state modelled here. -/
structure Display where
  config : DisplayConfig
  draw_region : Rect
  cmd : Option (Nat × List Nat)
  drawing : Bool
  current_position : Point
  framebuffer_raw : Nat → Nat
  trace : List Nat

/-- `Display::new`: full-screen draw region, no command, not drawing,
cursor at the origin, zeroed framebuffer. -/
def Display.new (config : DisplayConfig) : Display :=
  { config := config
    draw_region :=
      { left := 0, top := 0, right := config.width - 1, bottom := config.height - 1 }
    cmd := none
    drawing := false
    current_position := { x := 0, y := 0 }
    framebuffer_raw := fun _ => 0
    trace := [] }

/-- `u16::swap_bytes` on a 16-bit value. -/
def swap_bytes16 (c : Nat) : Nat :=
  ((c % 256) <<< 8) ||| (c >>> 8)

/-- `Display::draw_pixel`: optionally byte-swap, store the pixel at
`x + y*width`, then advance the cursor, wrapping at the draw region's
right and bottom edges. -/
def Display.draw_pixel (d : Display) (c : Nat) : Display :=
  let c := if d.config.swap_bytes then swap_bytes16 c else c
  let x := d.current_position.x
  let y := d.current_position.y
  let idx := x + y * d.config.width
  let d := { d with
    framebuffer_raw := fun i => if i = idx then c else d.framebuffer_raw i,
    trace := d.trace ++ [idx] }
  let x := x + 1
  let xy :=
    if d.draw_region.right < x then
      let x := d.draw_region.left
      let y := y + 1
      if d.draw_region.bottom < y then (x, d.draw_region.top) else (x, y)
    else (x, y)
  { d with current_position := { x := xy.1, y := xy.2 } }

/-- `enum Command` with `TryFromPrimitive`. -/
inductive Command where
  | SetHoriRegion | SetVertRegion | Draw

/-- `Command::try_from`: 0x2A, 0x2B, 0x2C. -/
def Command.try_from (c : Nat) : Option Command :=
  if c = 0x2A then some .SetHoriRegion
  else if c = 0x2B then some .SetVertRegion
  else if c = 0x2C then some .Draw
  else none

/-- `Display::handle_cmd`: consume the pending command when it has the
right number of arguments; region bounds are built from big-endian u16
pairs (`(args[0] << 8) | args[1]` in u16 arithmetic) and clamped to
`width-1` / `height-1`; `Draw` enters drawing mode at `(left, top)`.
Otherwise the command is put back. -/
def Display.handle_cmd (d : Display) : Display :=
  match d.cmd with
  | none => d
  | some (cmd, args) =>
    match Command.try_from cmd, args with
    | some .SetHoriRegion, [a0, a1, a2, a3] =>
      let left := ((a0 <<< 8) % 65536) ||| a1
      let right := ((a2 <<< 8) % 65536) ||| a3
      { d with
        cmd := none,
        draw_region := { d.draw_region with
          left := min left (d.config.width - 1),
          right := min right (d.config.width - 1) } }
    | some .SetVertRegion, [a0, a1, a2, a3] =>
      let top := ((a0 <<< 8) % 65536) ||| a1
      let bottom := ((a2 <<< 8) % 65536) ||| a3
      { d with
        cmd := none,
        draw_region := { d.draw_region with
          top := min top (d.config.height - 1),
          bottom := min bottom (d.config.height - 1) } }
    | some .Draw, [] =>
      { d with
        cmd := none,
        drawing := true,
        current_position := { x := d.draw_region.left, y := d.draw_region.top } }
    | _, _ => d

/-- `Display::finish_cmd`: stop drawing and drop any pending command. -/
def Display.finish_cmd (d : Display) : Display :=
  { d with drawing := false, cmd := none }

/-- `Mode::from_addr`: the configured address bit selects Data vs Cmd. -/
inductive Mode where
  | Cmd | Data

/-- `Mode::from_addr`. -/
def Mode.from_addr (data_addr_bit offset : Nat) : Mode :=
  if offset &&& data_addr_bit ≠ 0 then .Data else .Cmd

/-- `ExtDevice::read for Display`: finishes the command, returns 0. -/
def Display.read (d : Display) (_addr : Nat) : Nat × Display :=
  (0, d.finish_cmd)

/-- `ExtDevice::write for Display`: a Cmd write starts a fresh command
(`value as u8`); a Data write deposits a pixel while drawing, else
appends a u16 argument; then `handle_cmd` runs. -/
def Display.write (d : Display) (addr value : Nat) : Display :=
  let d := match Mode.from_addr d.config.cmd_addr_bit addr with
    | .Cmd =>
      let d := d.finish_cmd
      { d with cmd := some (value % 256, []) }
    | .Data =>
      if d.drawing then
        d.draw_pixel (value % 65536)
      else match d.cmd with
        | some (cmd, args) => { d with cmd := some (cmd, args ++ [value % 65536]) }
        | none => d
  d.handle_cmd

/-- One external-device access to the display. -/
inductive Op where
  | read (addr : Nat)
  | write (addr value : Nat)

/-- Apply one access. -/
def Display.step (d : Display) : Op → Display
  | .read addr => (d.read addr).2
  | .write addr value => d.write addr value

/-- Apply a sequence of accesses. -/
def Display.run (d : Display) (ops : List Op) : Display :=
  ops.foldl Display.step d

/-- The inductive invariant: positive dimensions, draw region clamped
inside the screen, the cursor inside the screen while drawing, and
every traced framebuffer index in bounds. -/
def Inv (d : Display) : Prop :=
  1 ≤ d.config.width ∧ 1 ≤ d.config.height ∧
  d.draw_region.left ≤ d.config.width - 1 ∧
  d.draw_region.right ≤ d.config.width - 1 ∧
  d.draw_region.top ≤ d.config.height - 1 ∧
  d.draw_region.bottom ≤ d.config.height - 1 ∧
  (d.drawing = true →
    d.current_position.x ≤ d.config.width - 1 ∧
    d.current_position.y ≤ d.config.height - 1) ∧
  (∀ i ∈ d.trace, i < d.config.width * d.config.height)

/-- `finish_cmd` preserves the invariant. -/
theorem inv_finish_cmd (d : Display) (h : Inv d) : Inv d.finish_cmd := by
  obtain ⟨h1, h2, h3, h4, h5, h6, _h7, h8⟩ := h
  refine ⟨h1, h2, h3, h4, h5, h6, ?_, h8⟩
  intro hfalse
  simp [Display.finish_cmd] at hfalse

/-- `draw_pixel`, invoked while drawing, preserves the invariant. -/
theorem inv_draw_pixel (d : Display) (c : Nat) (h : Inv d)
    (hd : d.drawing = true) : Inv (d.draw_pixel c) := by
  obtain ⟨h1, h2, h3, h4, h5, h6, h7, h8⟩ := h
  obtain ⟨hx, hy⟩ := h7 hd
  have hidx : d.current_position.x + d.current_position.y * d.config.width <
      d.config.width * d.config.height := by
    have hstep : d.current_position.x + d.current_position.y * d.config.width + 1 ≤
        (d.current_position.y + 1) * d.config.width := by
      have : d.current_position.x + 1 ≤ d.config.width := by omega
      calc d.current_position.x + d.current_position.y * d.config.width + 1
          = (d.current_position.x + 1) + d.current_position.y * d.config.width := by omega
        _ ≤ d.config.width + d.current_position.y * d.config.width := by omega
        _ = (d.current_position.y + 1) * d.config.width := by ring
    have hmul : (d.current_position.y + 1) * d.config.width ≤
        d.config.height * d.config.width :=
      Nat.mul_le_mul_right _ (by omega)
    calc d.current_position.x + d.current_position.y * d.config.width
        < (d.current_position.y + 1) * d.config.width := by omega
      _ ≤ d.config.height * d.config.width := hmul
      _ = d.config.width * d.config.height := Nat.mul_comm _ _
  unfold Display.draw_pixel
  refine ⟨h1, h2, h3, h4, h5, h6, ?_, ?_⟩
  · intro _
    dsimp only
    split
    · split
      · exact ⟨h3, h5⟩
      · rename_i hyb
        simp only [not_lt] at hyb
        exact ⟨h3, by omega⟩
    · rename_i hxr
      simp only [not_lt] at hxr
      exact ⟨by omega, by omega⟩
  · intro i hi
    dsimp only at hi
    rw [List.mem_append] at hi
    rcases hi with hi | hi
    · exact h8 i hi
    · rw [List.mem_singleton] at hi
      subst hi
      exact hidx

/-- `handle_cmd` preserves the invariant. -/
theorem inv_handle_cmd (d : Display) (h : Inv d) : Inv d.handle_cmd := by
  obtain ⟨h1, h2, h3, h4, h5, h6, h7, h8⟩ := h
  unfold Display.handle_cmd
  split
  · exact ⟨h1, h2, h3, h4, h5, h6, h7, h8⟩
  · split
    · refine ⟨h1, h2, ?_, ?_, h5, h6, h7, h8⟩ <;>
        exact Nat.le_trans (Nat.min_le_right _ _) (Nat.le_refl _)
    · refine ⟨h1, h2, h3, h4, ?_, ?_, h7, h8⟩ <;>
        exact Nat.le_trans (Nat.min_le_right _ _) (Nat.le_refl _)
    · exact ⟨h1, h2, h3, h4, h5, h6, fun _ => ⟨h3, h5⟩, h8⟩
    · exact ⟨h1, h2, h3, h4, h5, h6, h7, h8⟩

/-- `write` preserves the invariant. -/
theorem inv_write (d : Display) (addr value : Nat) (h : Inv d) :
    Inv (d.write addr value) := by
  unfold Display.write
  apply inv_handle_cmd
  split
  · have h' := inv_finish_cmd d h
    obtain ⟨h1, h2, h3, h4, h5, h6, h7, h8⟩ := h'
    exact ⟨h1, h2, h3, h4, h5, h6, h7, h8⟩
  · by_cases hd : d.drawing = true
    · rw [if_pos hd]
      exact inv_draw_pixel d _ h hd
    · rw [if_neg hd]
      obtain ⟨h1, h2, h3, h4, h5, h6, h7, h8⟩ := h
      split
      · exact ⟨h1, h2, h3, h4, h5, h6, h7, h8⟩
      · exact ⟨h1, h2, h3, h4, h5, h6, h7, h8⟩

/-- Every access preserves the invariant. -/
theorem inv_step (d : Display) (op : Op) (h : Inv d) : Inv (d.step op) := by
  cases op with
  | read addr => exact inv_finish_cmd d h
  | write addr value => exact inv_write d addr value h

/-- Accesses never change the configuration. -/
theorem step_config (d : Display) (op : Op) : (d.step op).config = d.config := by
  cases op with
  | read addr => rfl
  | write addr value =>
    show (Display.write d addr value).config = d.config
    unfold Display.write
    have hc : ∀ d' : Display, d'.handle_cmd.config = d'.config := by
      intro d'
      unfold Display.handle_cmd
      split
      · rfl
      · split <;> rfl
    rw [hc]
    split
    · rfl
    · split
      · show (Display.draw_pixel _ _).config = _
        unfold Display.draw_pixel
        rfl
      · split <;> rfl

/-- Running a sequence preserves the invariant and the configuration. -/
theorem inv_run (d : Display) (ops : List Op) (h : Inv d) :
    Inv (d.run ops) ∧ (d.run ops).config = d.config := by
  induction ops generalizing d with
  | nil => exact ⟨h, rfl⟩
  | cons op rest ih =>
    have hrw : d.run (op :: rest) = (d.step op).run rest := rfl
    have hrec := ih (d.step op) (inv_step d op h)
    rw [hrw]
    exact ⟨hrec.1, by rw [hrec.2, step_config]⟩

end DisplayDev

/-- C9: for every sequence of command, argument and pixel accesses to a
display configured with width ≥ 1 and height ≥ 1, every pixel index
`x + y*width` passed to the framebuffer lies in `[0, width*height)`:
the draw region is clamped to `width-1`/`height-1` and the drawing
cursor always wraps back inside the screen. -/
theorem display_framebuffer_bounds (cfg : DisplayDev.DisplayConfig)
    (ops : List DisplayDev.Op) (hW : 1 ≤ cfg.width) (hH : 1 ≤ cfg.height) :
    ∀ i ∈ ((DisplayDev.Display.new cfg).run ops).trace,
      i < cfg.width * cfg.height := by
  have hinit : DisplayDev.Inv (DisplayDev.Display.new cfg) := by
    refine ⟨hW, hH, Nat.zero_le _, Nat.le_refl _, Nat.zero_le _, Nat.le_refl _,
      ?_, ?_⟩
    · intro hfalse
      simp [DisplayDev.Display.new] at hfalse
    · intro i hi
      simp [DisplayDev.Display.new] at hi
  have h := DisplayDev.inv_run _ ops hinit
  obtain ⟨-, -, -, -, -, -, -, h8⟩ := h.1
  intro i hi
  have hbound := h8 i hi
  rw [h.2] at hbound
  exact hbound

/-- C9 witness: a 2×2 display, drawing three pixels after a Draw
command. -/
theorem display_framebuffer_bounds_witness :
    (0 : Nat) ∈ ((DisplayDev.Display.new ⟨2, 2, 1, false⟩).run
        [.write 0 0x2C, .write 1 0xAAAA, .write 1 0xBBBB,
         .write 1 0xCCCC]).trace ∧
    (0 : Nat) < 2 * 2 :=
  ⟨by decide,
   display_framebuffer_bounds ⟨2, 2, 1, false⟩
    [.write 0 0x2C, .write 1 0xAAAA, .write 1 0xBBBB, .write 1 0xCCCC]
    (by decide) (by decide) 0 (by decide)⟩

namespace Gpio

/-- `u32::trailing_zeros` for a nonzero value: the index of the least
significant set bit. -/
def trailingZeros : Nat → Nat
  | 0 => 0
  | n + 1 =>
    if (n + 1) % 2 = 1 then 0
    else trailingZeros ((n + 1) / 2) + 1
decreasing_by omega

/-- A nonzero value has its `trailingZeros`-th bit set. -/
theorem testBit_trailingZeros {n : Nat} (h : n ≠ 0) :
    n.testBit (trailingZeros n) = true := by
  induction n using Nat.strong_induction_on with
  | _ n ih =>
    match n, h with
    | n + 1, _ =>
      rw [trailingZeros]
      split
      · rename_i hodd
        simp [Nat.testBit_zero]
        omega
      · rename_i heven
        have hne : (n + 1) / 2 ≠ 0 := by omega
        have := ih ((n + 1) / 2) (by omega) hne
        rwa [Nat.testBit_succ]

/-- Bits below `trailingZeros` are clear. -/
theorem testBit_lt_trailingZeros {n i : Nat} (h : i < trailingZeros n) :
    n.testBit i = false := by
  induction n using Nat.strong_induction_on generalizing i with
  | _ n ih =>
    match n with
    | 0 => simp [Nat.zero_testBit]
    | n + 1 =>
      rw [trailingZeros] at h
      by_cases hodd : (n + 1) % 2 = 1
      · rw [if_pos hodd] at h
        omega
      · rw [if_neg hodd] at h
        match i with
        | 0 =>
          simp [Nat.testBit_zero]
          omega
        | i + 1 =>
          rw [Nat.testBit_succ]
          exact ih ((n + 1) / 2) (by omega) (by omega)

/-- The loop body of `Gpio::iter_port_reg_changes`: while `changes ≠ 0`,
take the rightmost set bit, derive `pin = bit / stride`, emit
`f(pin, (new_value >> pin*stride) as u8 & stride_mask)` when `pin ≤ 16`,
and clear the scanned field with
`changes &= !(stride_mask as u32) << (pin*stride)` (u32 arithmetic).
The emitted `(pin, value)` calls are returned in order.  The hypotheses
`0 < stride ≤ 8` reflect that the Rust loop only terminates for the
strides the GPIO code uses (1, 2, 4); `stride = 0` panics with a
division by zero. -/
def iter_port_reg_changes_go (new_value stride : Nat)
    (hs : 0 < stride) (hs8 : stride ≤ 8) (changes : Nat) : List (Nat × Nat) :=
  let stride_mask := 0xFF >>> (8 - stride)
  if h : changes = 0 then []
  else
    let right_most_bit := trailingZeros changes
    let pin := right_most_bit / stride
    (if pin ≤ 16 then
      [(pin, ((new_value >>> (pin * stride)) % 256) &&& stride_mask)]
    else []) ++
      iter_port_reg_changes_go new_value stride hs hs8
        (changes &&& (((0xFFFFFFFF ^^^ stride_mask) <<< (pin * stride)) % 2 ^ 32))
termination_by changes
decreasing_by
  by_cases hlt : changes < 2 ^ 32
  · have hbit : changes.testBit (trailingZeros changes) = true := testBit_trailingZeros h
    have hrmb32 : trailingZeros changes < 32 := by
      by_contra hge
      have hsmall : changes < 2 ^ trailingZeros changes :=
        Nat.lt_of_lt_of_le hlt (Nat.pow_le_pow_right (by norm_num) (by omega))
      rw [Nat.testBit_lt_two_pow hsmall] at hbit
      exact Bool.false_ne_true hbit
    apply Nat.lt_of_le_of_ne Nat.and_le_left
    intro heq
    have hsame := congrArg (fun x => x.testBit (trailingZeros changes)) heq
    simp only [Nat.testBit_and, hbit, Bool.true_and] at hsame
    have hsle : trailingZeros changes / stride * stride ≤ trailingZeros changes :=
      Nat.div_mul_le_self _ _
    have hdm := Nat.div_add_mod (trailingZeros changes) stride
    have hmodlt := Nat.mod_lt (trailingZeros changes) hs
    have hcomm : stride * (trailingZeros changes / stride) =
        trailingZeros changes / stride * stride := Nat.mul_comm _ _
    have hkrem : trailingZeros changes - trailingZeros changes / stride * stride <
        stride := by omega
    rw [Nat.testBit_mod_two_pow, Nat.testBit_shiftLeft] at hsame
    have h8 : (0xFF : Nat) = 2 ^ 8 - 1 := by norm_num
    have h32 : (0xFFFFFFFF : Nat) = 2 ^ 32 - 1 := by norm_num
    rw [decide_eq_true hrmb32, Bool.true_and, decide_eq_true hsle, Bool.true_and,
      Nat.testBit_xor, h8, h32, Nat.testBit_shiftRight,
      Nat.testBit_two_pow_sub_one, Nat.testBit_two_pow_sub_one] at hsame
    rw [decide_eq_true (by omega : 8 - stride +
        (trailingZeros changes - trailingZeros changes / stride * stride) < 8)] at hsame
    rw [decide_eq_true (by omega : trailingZeros changes -
        trailingZeros changes / stride * stride < 32)] at hsame
    simp at hsame
  · have h1 : changes &&& (((0xFFFFFFFF ^^^ (0xFF >>> (8 - stride))) <<<
        (trailingZeros changes / stride * stride)) % 2 ^ 32) ≤
        ((0xFFFFFFFF ^^^ (0xFF >>> (8 - stride))) <<<
          (trailingZeros changes / stride * stride)) % 2 ^ 32 :=
      Nat.and_le_right
    have h2 : ((0xFFFFFFFF ^^^ (0xFF >>> (8 - stride))) <<<
        (trailingZeros changes / stride * stride)) % 2 ^ 32 < 2 ^ 32 :=
      Nat.mod_lt _ (by norm_num)
    omega

/-- `Gpio::iter_port_reg_changes`: scan `old_value ^ new_value` and
emit the changed fields. -/
def iter_port_reg_changes (old_value new_value stride : Nat)
    (hs : 0 < stride) (hs8 : stride ≤ 8) : List (Nat × Nat) :=
  iter_port_reg_changes_go new_value stride hs hs8 (old_value ^^^ new_value)

/-- Clearing the scanned 1-bit field: the masked value keeps exactly
the bits of `changes` above bit `r`. -/
theorem and_mask_testBit (changes r i : Nat) (hc : changes < 2 ^ 32) :
    (changes &&& ((0xFFFFFFFE <<< r) % 2 ^ 32)).testBit i =
      (changes.testBit i && decide (r < i)) := by
  have hrepr : (0xFFFFFFFE : Nat) = (2 ^ 32 - 1) ^^^ 2 ^ 0 := by decide
  rw [Nat.testBit_and, Nat.testBit_mod_two_pow, Nat.testBit_shiftLeft, hrepr,
    Nat.testBit_xor, Nat.testBit_two_pow_sub_one, Nat.testBit_two_pow]
  rcases Nat.lt_or_ge i 32 with hi | hi
  · cases hcb : changes.testBit i
    · simp
    · simp only [Bool.true_and]
      rcases Nat.lt_or_ge r i with hr | hr
      · rw [decide_eq_true hi, decide_eq_true (by omega : r ≤ i),
          decide_eq_true (by omega : i - r < 32),
          decide_eq_false (by omega : ¬ 0 = i - r)]
        simp [hr]
      · rw [decide_eq_false (by omega : ¬ r < i)]
        rcases Nat.eq_or_lt_of_le hr with hre | hrg
        · rw [decide_eq_true (by omega : r ≤ i), decide_eq_true (by omega : i - r < 32),
            decide_eq_true (by omega : 0 = i - r)]
          simp
        · rw [decide_eq_false (by omega : ¬ r ≤ i)]
          simp
  · have hz : changes.testBit i = false :=
      Nat.testBit_lt_two_pow
        (Nat.lt_of_lt_of_le hc (Nat.pow_le_pow_right (by norm_num) hi))
    simp [hz]

/-- At stride 1, the scan emits each set bit `k ≤ 16` of `changes`
exactly once. -/
theorem go_countP_pin (new_value : Nat) (hs : 0 < 1) (hs8 : (1 : Nat) ≤ 8)
    (changes : Nat) (hc : changes < 2 ^ 32) (k : Nat) (hk : k ≤ 16) :
    (iter_port_reg_changes_go new_value 1 hs hs8 changes).countP
      (fun pv => decide (pv.1 = k)) = if changes.testBit k then 1 else 0 := by
  induction changes using Nat.strong_induction_on with
  | _ changes ih =>
    rw [iter_port_reg_changes_go]
    by_cases h0 : changes = 0
    · rw [dif_pos h0, h0]
      simp [Nat.zero_testBit]
    · rw [dif_neg h0]
      dsimp only
      have hm : (0xFFFFFFFF : Nat) ^^^ (0xFF >>> (8 - 1)) = 0xFFFFFFFE := by decide
      rw [hm, Nat.div_one, Nat.mul_one, List.countP_append]
      have hbit : changes.testBit (trailingZeros changes) = true :=
        testBit_trailingZeros h0
      have hrest_lt : changes &&& ((0xFFFFFFFE <<< trailingZeros changes) % 2 ^ 32) <
          2 ^ 32 := Nat.lt_of_le_of_lt Nat.and_le_left hc
      have hdec : changes &&& ((0xFFFFFFFE <<< trailingZeros changes) % 2 ^ 32) <
          changes := by
        apply Nat.lt_of_le_of_ne Nat.and_le_left
        intro heq
        have hb2 : (changes &&&
            ((0xFFFFFFFE <<< trailingZeros changes) % 2 ^ 32)).testBit
            (trailingZeros changes) = changes.testBit (trailingZeros changes) := by
          rw [heq]
        rw [and_mask_testBit _ _ _ hc] at hb2
        simp [hbit] at hb2
      have hrec := ih _ hdec hrest_lt
      rw [hrec, and_mask_testBit _ _ _ hc]
      by_cases hkr : k = trailingZeros changes
      · subst hkr
        rw [if_pos hk, hbit,
          decide_eq_false
            (by omega : ¬ trailingZeros changes < trailingZeros changes)]
        simp [List.countP_cons]
      · have hhead : (if trailingZeros changes ≤ 16 then
            [(trailingZeros changes,
               new_value >>> trailingZeros changes % 256 &&& 0xFF >>> (8 - 1))]
          else ([] : List (Nat × Nat))).countP
            (fun pv => decide (pv.1 = k)) = 0 := by
          split
          · simp only [List.countP_cons, List.countP_nil]
            rw [decide_eq_false (by omega : ¬ trailingZeros changes = k)]
            simp
          · simp
        rw [hhead]
        rcases Nat.lt_or_ge (trailingZeros changes) k with hlt | hge
        · rw [decide_eq_true hlt]
          simp
        · have hklt : k < trailingZeros changes := by omega
          rw [testBit_lt_trailingZeros hklt, decide_eq_false (by omega)]
          simp

/-- At stride 1, every emitted `(pin, v)` has `pin ≤ 16` and
`v = (new_value >> pin) as u8 & 1`. -/
theorem go_mem (new_value : Nat) (hs : 0 < 1) (hs8 : (1 : Nat) ≤ 8)
    (changes : Nat) :
    ∀ pv ∈ iter_port_reg_changes_go new_value 1 hs hs8 changes,
      pv.1 ≤ 16 ∧ pv.2 = (new_value >>> pv.1) % 256 &&& 1 := by
  induction changes using Nat.strong_induction_on with
  | _ changes ih =>
    rw [iter_port_reg_changes_go]
    by_cases h0 : changes = 0
    · rw [dif_pos h0]
      intro pv hpv
      simp at hpv
    · rw [dif_neg h0]
      dsimp only
      intro pv hpv
      rw [List.mem_append] at hpv
      rcases hpv with hpv | hpv
      · split at hpv
        · rename_i hle
          rw [List.mem_singleton] at hpv
          subst hpv
          refine ⟨by simpa using hle, ?_⟩
          show new_value >>> (trailingZeros changes / 1 * 1) % 256 &&&
              (0xFF >>> (8 - 1)) =
            new_value >>> (trailingZeros changes / 1) % 256 &&& 1
          rw [Nat.mul_one, show (0xFF : Nat) >>> (8 - 1) = 1 from by decide]
        · simp at hpv
      · have hdec : changes &&&
            (((0xFFFFFFFF ^^^ 0xFF >>> (8 - 1)) <<<
              (trailingZeros changes / 1 * 1)) % 2 ^ 32) < changes := by
          have hm : (0xFFFFFFFF : Nat) ^^^ (0xFF >>> (8 - 1)) = 0xFFFFFFFE := by decide
          rw [hm, Nat.div_one, Nat.mul_one]
          rcases Nat.lt_or_ge changes (2 ^ 32) with hc | hc
          · apply Nat.lt_of_le_of_ne Nat.and_le_left
            intro heq
            have hb2 : (changes &&&
                ((0xFFFFFFFE <<< trailingZeros changes) % 2 ^ 32)).testBit
                (trailingZeros changes) = changes.testBit (trailingZeros changes) := by
              rw [heq]
            rw [and_mask_testBit _ _ _ hc] at hb2
            simp [testBit_trailingZeros h0] at hb2
          · have h1 : changes &&& ((0xFFFFFFFE <<< trailingZeros changes) % 2 ^ 32) ≤
                (0xFFFFFFFE <<< trailingZeros changes) % 2 ^ 32 := Nat.and_le_right
            have h2 : (0xFFFFFFFE <<< trailingZeros changes) % 2 ^ 32 < 2 ^ 32 :=
              Nat.mod_lt _ (by norm_num)
            omega
        exact ih _ hdec pv hpv

/-- `GpioPorts::write_port` for one port: invoke, in registration
order, every write-callback whose registered pin equals `pin`, passing
`value`.  A callback registration is a `(pin, id)` pair; the returned
trace lists each invocation as `(pin, id, value)`. -/
def write_port (write_callbacks : List (Nat × Nat)) (pin : Nat) (value : Bool) :
    List (Nat × Nat × Bool) :=
  write_callbacks.filterMap (fun pc =>
    if pc.1 = pin then some (pc.1, pc.2, value) else none)

/-- The ODR branch of `Gpio::write` (offset 0x14): XOR-scan the old and
new output-data values at stride 1, fan each changed pin out through
`write_port` with the new bit as a boolean, and store the new value in
`od`.  Returns the invocation trace and the new `od`. -/
def write_odr (write_callbacks : List (Nat × Nat)) (od value : Nat) :
    List (Nat × Nat × Bool) × Nat :=
  ((iter_port_reg_changes od value 1 (by decide) (by decide)).flatMap
    (fun pv => write_port write_callbacks pv.1 (pv.2 != 0)), value)

/-- Invocation count of one `write_port` fan-out. -/
theorem countP_write_port (write_callbacks : List (Nat × Nat))
    (pin : Nat) (v : Bool) (k id : Nat) :
    (write_port write_callbacks pin v).countP
        (fun e => decide (e.1 = k ∧ e.2.1 = id)) =
      if pin = k then
        write_callbacks.countP (fun pc => decide (pc.1 = k ∧ pc.2 = id))
      else 0 := by
  unfold write_port
  rw [List.countP_filterMap]
  by_cases hpk : pin = k
  · subst hpk
    rw [if_pos rfl]
    apply List.countP_congr
    intro pc _
    by_cases h : pc.1 = pin
    · simp [h]
    · simp [h]
  · rw [if_neg hpk, List.countP_eq_zero]
    intro pc _
    by_cases h : pc.1 = pin
    · simp [h]
      omega
    · simp [h]

/-- Summing a per-pin constant over the scan list. -/
theorem sum_if_eq (l : List (Nat × Nat)) (k N : Nat) :
    (l.map (fun pv => if pv.1 = k then N else 0)).sum =
      l.countP (fun pv => decide (pv.1 = k)) * N := by
  induction l with
  | nil => simp
  | cons a t ih =>
    rw [List.map_cons, List.sum_cons, List.countP_cons, ih]
    by_cases h : a.1 = k
    · simp [h, Nat.add_mul]
      omega
    · simp [h]

/-- The boolean passed to a pin-`k` callback is the new bit `k`. -/
theorem bit_of_val (y k : Nat) : (((y >>> k) % 256 &&& 1) != 0) = y.testBit k := by
  rw [Nat.and_one_is_mod, Nat.mod_mod_of_dvd _ (by norm_num),
    Nat.testBit_to_div_mod, Nat.shiftRight_eq_div_pow]
  rcases Nat.mod_two_eq_zero_or_one (y / 2 ^ k) with h | h <;> simp [h]

end Gpio

/-- C6: writing ODR with a value whose bit k (k ≤ 16, the pins a
callback can be registered for) differs from the stored output-data bit
k invokes every write-callback registered for pin k exactly once —
once per `(k, id)` registration — passing the new boolean bit value,
and pins whose bits did not change have none of their callbacks
invoked; the stored ODR becomes the written value. -/
theorem gpio_odr_change_fanout (write_callbacks : List (Nat × Nat))
    (od value : Nat) (hod : od < 2 ^ 32) (hval : value < 2 ^ 32)
    (k id : Nat) (hk : k ≤ 16) :
    ((Gpio.write_odr write_callbacks od value).1.countP
        (fun e => decide (e.1 = k ∧ e.2.1 = id)) =
      if od.testBit k = value.testBit k then 0
      else write_callbacks.countP (fun pc => decide (pc.1 = k ∧ pc.2 = id))) ∧
    (∀ e ∈ (Gpio.write_odr write_callbacks od value).1,
        e.1 = k → e.2.2 = value.testBit k) ∧
    (Gpio.write_odr write_callbacks od value).2 = value := by
  have hxlt : od ^^^ value < 2 ^ 32 := Nat.xor_lt_two_pow hod hval
  refine ⟨?_, ?_, rfl⟩
  · show ((Gpio.iter_port_reg_changes od value 1 (by decide) (by decide)).flatMap
      (fun pv => Gpio.write_port write_callbacks pv.1 (pv.2 != 0))).countP _ = _
    rw [List.countP_flatMap]
    have hfun : (List.countP (fun e => decide (e.1 = k ∧ e.2.1 = id)) ∘
        fun pv => Gpio.write_port write_callbacks pv.1 (pv.2 != 0)) =
        fun pv : Nat × Nat => if pv.1 = k then
          write_callbacks.countP (fun pc => decide (pc.1 = k ∧ pc.2 = id))
        else 0 :=
      funext fun pv => Gpio.countP_write_port write_callbacks pv.1 _ k id
    rw [hfun, Gpio.sum_if_eq]
    show (Gpio.iter_port_reg_changes_go value 1 _ _ (od ^^^ value)).countP _ * _ = _
    rw [Gpio.go_countP_pin value _ _ _ hxlt k hk, Nat.testBit_xor]
    cases h1 : od.testBit k <;> cases h2 : value.testBit k <;> simp
  · intro e he
    have he' : e ∈ (Gpio.iter_port_reg_changes od value 1 (by decide)
        (by decide)).flatMap
        (fun pv => Gpio.write_port write_callbacks pv.1 (pv.2 != 0)) := he
    obtain ⟨pv, hpv, hem⟩ := List.mem_flatMap.mp he'
    obtain ⟨hpin, hv2⟩ := Gpio.go_mem value (by decide) (by decide)
      (od ^^^ value) pv hpv
    unfold Gpio.write_port at hem
    rw [List.mem_filterMap] at hem
    obtain ⟨pc, _hpc, heq⟩ := hem
    by_cases h : pc.1 = pv.1
    · rw [if_pos h] at heq
      have he2 : e = (pc.1, pc.2, pv.2 != 0) := (Option.some.inj heq).symm
      subst he2
      intro hek
      show (pv.2 != 0) = value.testBit k
      rw [hv2]
      have hpk : pv.1 = k := by
        rw [← h]
        exact hek
      rw [hpk]
      exact Gpio.bit_of_val value k
    · rw [if_neg h] at heq
      cases heq

/-- C6 witness: three registrations (pins 0, 0, 3), ODR going from 0 to
9 (bits 0 and 3 change), observed for pin 0 and callback id 10. -/
theorem gpio_odr_change_fanout_witness :
    ((Gpio.write_odr [(0, 10), (0, 11), (3, 12)] 0 9).1.countP
        (fun e => decide (e.1 = 0 ∧ e.2.1 = 10)) =
      if (0 : Nat).testBit 0 = (9 : Nat).testBit 0 then 0
      else List.countP (fun pc => decide (pc.1 = 0 ∧ pc.2 = 10))
        [(0, 10), (0, 11), (3, 12)]) ∧
    (∀ e ∈ (Gpio.write_odr [(0, 10), (0, 11), (3, 12)] 0 9).1,
        e.1 = 0 → e.2.2 = (9 : Nat).testBit 0) ∧
    (Gpio.write_odr [(0, 10), (0, 11), (3, 12)] 0 9).2 = 9 :=
  gpio_odr_change_fanout [(0, 10), (0, 11), (3, 12)] 0 9 (by norm_num)
    (by norm_num) 0 10 (by norm_num)

namespace SwSpi

/-- A device write/read call observed by the bound external device:
`wr b` is `device.write(b)`, `rd b` is `device.read()` returning `b`. -/
inductive SpiEvent where
  | wr (b : Nat)
  | rd (b : Nat)
deriving Repr, DecidableEq

/-- `struct SoftwareSpi` (`peripherals/sw_spi.rs`): shift registers
(`u8`), bit counter (`u8`), latched line levels, and the optional bound
device.  The device is modelled as a response function `Nat → Nat`
(byte written ↦ byte subsequently read); `trace` is the ghost record of
the write/read calls issued to it. -/
structure SoftwareSpi where
  data_mosi : Nat
  data_miso : Nat
  bit_index : Nat
  cs : Bool
  clk : Bool
  mosi : Bool
  miso : Bool
  ext_device : Option (Nat → Nat)
  trace : List SpiEvent

/-- `SoftwareSpi::xfer`: write the accumulated MOSI byte to the bound
device and read the next MISO byte back (0 with no device). -/
def xfer (s : SoftwareSpi) (mosi : Nat) : Nat × SoftwareSpi :=
  match s.ext_device with
  | some d => (d mosi, { s with trace := s.trace ++ [.wr mosi, .rd (d mosi)] })
  | none => (0, s)

/-- `SoftwareSpi::write_cs`: a falling CS edge resets the shift state
and line levels; the CS level is latched. -/
def write_cs (s : SoftwareSpi) (value : Bool) : SoftwareSpi :=
  let s := if s.cs ∧ ¬ value then
      { s with data_mosi := 0, data_miso := 0, bit_index := 0,
               clk := false, mosi := false, miso := false }
    else s
  { s with cs := value }

/-- `SoftwareSpi::write_clk`: with CS high, ignore.  On a rising edge:
latch MISO from bit 7 of `data_miso` and shift it left; shift the MOSI
level into `data_mosi`; after the 8th bit, `xfer` the byte and reload
`data_miso` with the reply.  All shift-register arithmetic is `u8`. -/
def write_clk (s : SoftwareSpi) (value : Bool) : SoftwareSpi :=
  if s.cs then s
  else
    let s :=
      if ¬ s.clk ∧ value then
        let s := { s with
          miso := s.data_miso &&& 0x80 != 0,
          data_miso := (s.data_miso <<< 1) % 256 }
        let s := { s with
          data_mosi := if s.mosi then ((s.data_mosi <<< 1) % 256) ||| 1
                       else (s.data_mosi <<< 1) % 256 }
        let s := { s with bit_index := (s.bit_index + 1) % 256 }
        if s.bit_index = 8 then
          let r := xfer s s.data_mosi
          { r.2 with bit_index := 0, data_miso := r.1 }
        else s
      else s
    { s with clk := value }

/-- `SoftwareSpi::read_miso`: the latched MISO level while CS is low. -/
def read_miso (s : SoftwareSpi) : Bool :=
  if s.cs then false else s.miso

/-- `SoftwareSpi::write_mosi`: latch the MOSI level while CS is low. -/
def write_mosi (s : SoftwareSpi) (value : Bool) : SoftwareSpi :=
  if s.cs then s else { s with mosi := value }

/-- One full clock cycle carrying one MOSI bit: set the MOSI level,
raise CLK (the rising edge does the work), lower CLK. -/
def clock_in_bit (s : SoftwareSpi) (m : Bool) : SoftwareSpi :=
  write_clk (write_clk (write_mosi s m) true) false

/-- Feed a list of MOSI bits, one clock cycle each, collecting the MISO
level observed (via `read_miso`) right after each rising edge. -/
def clock_bits : SoftwareSpi → List Bool → List Bool × SoftwareSpi
  | s, [] => ([], s)
  | s, m :: ms =>
    let s1 := clock_in_bit s m
    let rest := clock_bits s1 ms
    (read_miso s1 :: rest.1, rest.2)

/-- ORing the incoming bit into an even shifted value is addition. -/
theorem two_mul_or_one (y : Nat) : (2 * y) ||| 1 = 2 * y + 1 := by
  apply Nat.eq_of_testBit_eq
  intro i
  match i with
  | 0 =>
    rw [Nat.testBit_or, Nat.testBit_zero, Nat.testBit_zero, Nat.testBit_zero,
      decide_eq_false (by omega : ¬ 2 * y % 2 = 1),
      decide_eq_true (by norm_num : (1 : Nat) % 2 = 1),
      decide_eq_true (by omega : (2 * y + 1) % 2 = 1)]
    rfl
  | i + 1 =>
    rw [Nat.testBit_or, Nat.testBit_succ, Nat.testBit_succ, Nat.testBit_succ,
      show 2 * y / 2 = y from by omega,
      show (2 * y + 1) / 2 = y from by omega,
      show (1 : Nat) / 2 = 0 from by norm_num,
      Nat.zero_testBit, Bool.or_false]

/-- Shifting a bit 1 into the `u8` MOSI register. -/
theorem shift_in_one (d : Nat) : ((d <<< 1) % 256) ||| 1 = (2 * d + 1) % 256 := by
  have h1 : d <<< 1 = 2 * d := by
    rw [Nat.shiftLeft_eq]
    ring
  have h2 : (2 * d) % 256 = 2 * (d % 128) := by omega
  rw [h1, h2, two_mul_or_one]
  omega

/-- Shifting a bit 0 into the `u8` MOSI register. -/
theorem shift_in_zero (d : Nat) : (d <<< 1) % 256 = (2 * d) % 256 := by
  have h1 : d <<< 1 = 2 * d := by
    rw [Nat.shiftLeft_eq]
    ring
  rw [h1]

/-- The MISO latch condition reads bit 7. -/
theorem and_bit7 (y : Nat) : (y &&& 0x80 != 0) = y.testBit 7 := by
  rw [show (0x80 : Nat) = 2 ^ 7 from by norm_num, Nat.and_two_pow]
  cases h : y.testBit 7 <;> simp [h]

/-- One `u8` left shift moves the observed bit index down by one. -/
theorem shifted_testBit (x i : Nat) (hi : i + 1 < 8) :
    ((x <<< 1) % 256).testBit (i + 1) = x.testBit i := by
  rw [show x <<< 1 = 2 * x from by rw [Nat.shiftLeft_eq]; ring,
    show (256 : Nat) = 2 ^ 8 from by norm_num, Nat.testBit_mod_two_pow,
    decide_eq_true hi, Bool.true_and, Nat.testBit_succ,
    show 2 * x / 2 = x from by omega]

/-- One `u8` left shift moves bit 6 to the MISO latch position. -/
theorem shifted_testBit7 (x : Nat) : ((x <<< 1) % 256).testBit 7 = x.testBit 6 :=
  shifted_testBit x 6 (by norm_num)

/-- Iterated shift-out positions. -/
theorem shifted_testBit6 (x : Nat) : ((x <<< 1) % 256).testBit 6 = x.testBit 5 :=
  shifted_testBit x 5 (by norm_num)

/-- Iterated shift-out positions. -/
theorem shifted_testBit5 (x : Nat) : ((x <<< 1) % 256).testBit 5 = x.testBit 4 :=
  shifted_testBit x 4 (by norm_num)

/-- Iterated shift-out positions. -/
theorem shifted_testBit4 (x : Nat) : ((x <<< 1) % 256).testBit 4 = x.testBit 3 :=
  shifted_testBit x 3 (by norm_num)

/-- Iterated shift-out positions. -/
theorem shifted_testBit3 (x : Nat) : ((x <<< 1) % 256).testBit 3 = x.testBit 2 :=
  shifted_testBit x 2 (by norm_num)

/-- Iterated shift-out positions. -/
theorem shifted_testBit2 (x : Nat) : ((x <<< 1) % 256).testBit 2 = x.testBit 1 :=
  shifted_testBit x 1 (by norm_num)

/-- Iterated shift-out positions. -/
theorem shifted_testBit1 (x : Nat) : ((x <<< 1) % 256).testBit 1 = x.testBit 0 :=
  shifted_testBit x 0 (by norm_num)

/-- The MOSI shift-in update, folded into sum form. -/
theorem if_shift (m : Bool) (d : Nat) :
    (if m then ((d <<< 1) % 256) ||| 1 else (d <<< 1) % 256) =
      (2 * d + (if m then 1 else 0)) % 256 := by
  cases m
  · simp [shift_in_zero]
  · simp [shift_in_one]

/-- Collapsing nested `u8` reductions. -/
theorem mod_collapse (y b : Nat) : (2 * (y % 256) + b) % 256 = (2 * y + b) % 256 := by
  omega

/-- The claim's OR-of-disjoint-bits byte written as a sum. -/
theorem byte_or_form (m7 m6 m5 m4 m3 m2 m1 m0 : Bool) :
    ((if m7 then (1 : Nat) else 0) <<< 7) |||
    ((if m6 then (1 : Nat) else 0) <<< 6) |||
    ((if m5 then (1 : Nat) else 0) <<< 5) |||
    ((if m4 then (1 : Nat) else 0) <<< 4) |||
    ((if m3 then (1 : Nat) else 0) <<< 3) |||
    ((if m2 then (1 : Nat) else 0) <<< 2) |||
    ((if m1 then (1 : Nat) else 0) <<< 1) |||
    (if m0 then (1 : Nat) else 0) =
      128 * (if m7 then (1 : Nat) else 0) + 64 * (if m6 then (1 : Nat) else 0) +
      32 * (if m5 then (1 : Nat) else 0) + 16 * (if m4 then (1 : Nat) else 0) +
      8 * (if m3 then (1 : Nat) else 0) + 4 * (if m2 then (1 : Nat) else 0) +
      2 * (if m1 then (1 : Nat) else 0) + (if m0 then (1 : Nat) else 0) := by
  cases m7 <;> cases m6 <;> cases m5 <;> cases m4 <;>
    cases m3 <;> cases m2 <;> cases m1 <;> cases m0 <;> decide

/-- One mid-frame clock cycle from a CS-low, CLK-low state: latch MISO
from bit 7, shift both registers, absorb the MOSI bit, bump the
counter. -/
theorem clock_in_bit_mid_lit (dmo dmi bi : Nat) (mo mi : Bool)
    (dev : Option (Nat → Nat)) (tr : List SpiEvent) (m : Bool)
    (hbi : (bi + 1) % 256 ≠ 8) :
    clock_in_bit ⟨dmo, dmi, bi, false, false, mo, mi, dev, tr⟩ m =
      ⟨(2 * dmo + (if m then 1 else 0)) % 256, (dmi <<< 1) % 256, (bi + 1) % 256,
       false, false, m, dmi &&& 0x80 != 0, dev, tr⟩ := by
  simp only [clock_in_bit, write_mosi, write_clk, xfer, if_shift]
  norm_num [hbi]

/-- The eighth clock cycle: as above, then transfer the completed byte
and reload `data_miso` with the device's reply. -/
theorem clock_in_bit_last_lit (dmo dmi bi : Nat) (mo mi : Bool)
    (f : Nat → Nat) (tr : List SpiEvent) (m : Bool)
    (hbi : (bi + 1) % 256 = 8) :
    clock_in_bit ⟨dmo, dmi, bi, false, false, mo, mi, some f, tr⟩ m =
      ⟨(2 * dmo + (if m then 1 else 0)) % 256,
       f ((2 * dmo + (if m then 1 else 0)) % 256), 0,
       false, false, m, dmi &&& 0x80 != 0, some f,
       tr ++ [.wr ((2 * dmo + (if m then 1 else 0)) % 256),
              .rd (f ((2 * dmo + (if m then 1 else 0)) % 256))]⟩ := by
  simp only [clock_in_bit, write_mosi, write_clk, xfer, if_shift]
  norm_num [hbi]

/-- Unfolding one cycle of `clock_bits`. -/
theorem clock_bits_cons (s : SoftwareSpi) (m : Bool) (ms : List Bool) :
    clock_bits s (m :: ms) =
      (read_miso (clock_in_bit s m) :: (clock_bits (clock_in_bit s m) ms).1,
       (clock_bits (clock_in_bit s m) ms).2) := rfl

/-- `clock_bits` on no bits. -/
theorem clock_bits_nil (s : SoftwareSpi) : clock_bits s [] = ([], s) := rfl

/-- Shifting in a full byte: the frame state after eight clock cycles.
The returned state has the transferred byte's reply loaded in
`data_miso`, the counter reset, and exactly one `wr`/`rd` pair appended
to the device trace. -/
theorem frame_in (s : SoftwareSpi) (f : Nat → Nat)
    (m7 m6 m5 m4 m3 m2 m1 m0 : Bool)
    (hcs : s.cs = false) (hclk : s.clk = false) (hbi : s.bit_index = 0)
    (hdev : s.ext_device = some f) :
    (clock_bits s [m7, m6, m5, m4, m3, m2, m1, m0]).2.cs = false ∧
    (clock_bits s [m7, m6, m5, m4, m3, m2, m1, m0]).2.clk = false ∧
    (clock_bits s [m7, m6, m5, m4, m3, m2, m1, m0]).2.bit_index = 0 ∧
    (clock_bits s [m7, m6, m5, m4, m3, m2, m1, m0]).2.ext_device = some f ∧
    (clock_bits s [m7, m6, m5, m4, m3, m2, m1, m0]).2.data_miso =
      f (128 * (if m7 then (1 : Nat) else 0) + 64 * (if m6 then (1 : Nat) else 0) +
         32 * (if m5 then (1 : Nat) else 0) + 16 * (if m4 then (1 : Nat) else 0) +
         8 * (if m3 then (1 : Nat) else 0) + 4 * (if m2 then (1 : Nat) else 0) +
         2 * (if m1 then (1 : Nat) else 0) + (if m0 then (1 : Nat) else 0)) ∧
    (clock_bits s [m7, m6, m5, m4, m3, m2, m1, m0]).2.trace =
      s.trace ++
        [.wr (128 * (if m7 then (1 : Nat) else 0) + 64 * (if m6 then (1 : Nat) else 0) +
          32 * (if m5 then (1 : Nat) else 0) + 16 * (if m4 then (1 : Nat) else 0) +
          8 * (if m3 then (1 : Nat) else 0) + 4 * (if m2 then (1 : Nat) else 0) +
          2 * (if m1 then (1 : Nat) else 0) + (if m0 then (1 : Nat) else 0)),
         .rd (f (128 * (if m7 then (1 : Nat) else 0) + 64 * (if m6 then (1 : Nat) else 0) +
          32 * (if m5 then (1 : Nat) else 0) + 16 * (if m4 then (1 : Nat) else 0) +
          8 * (if m3 then (1 : Nat) else 0) + 4 * (if m2 then (1 : Nat) else 0) +
          2 * (if m1 then (1 : Nat) else 0) + (if m0 then (1 : Nat) else 0)))]  := by
  obtain ⟨dmo, dmi, bi, cs, clk, mo, mi, dev, tr⟩ := s
  dsimp only at hcs hclk hbi hdev
  subst hcs hclk hbi hdev
  have hb7 : (if m7 then (1 : Nat) else 0) ≤ 1 := by cases m7 <;> norm_num
  have hb6 : (if m6 then (1 : Nat) else 0) ≤ 1 := by cases m6 <;> norm_num
  have hb5 : (if m5 then (1 : Nat) else 0) ≤ 1 := by cases m5 <;> norm_num
  have hb4 : (if m4 then (1 : Nat) else 0) ≤ 1 := by cases m4 <;> norm_num
  have hb3 : (if m3 then (1 : Nat) else 0) ≤ 1 := by cases m3 <;> norm_num
  have hb2 : (if m2 then (1 : Nat) else 0) ≤ 1 := by cases m2 <;> norm_num
  have hb1 : (if m1 then (1 : Nat) else 0) ≤ 1 := by cases m1 <;> norm_num
  have hb0 : (if m0 then (1 : Nat) else 0) ≤ 1 := by cases m0 <;> norm_num
  rw [clock_bits_cons,
    clock_in_bit_mid_lit dmo dmi 0 mo mi (some f) tr m7 (by norm_num)]
  simp only [Nat.reduceAdd, Nat.reduceMod]
  set d1 := (2 * dmo + (if m7 then 1 else 0)) % 256 with hd1
  set r1 := (dmi <<< 1) % 256 with hr1
  rw [clock_bits_cons,
    clock_in_bit_mid_lit d1 r1 1 m7 (dmi &&& 0x80 != 0) (some f) tr m6 (by norm_num)]
  simp only [Nat.reduceAdd, Nat.reduceMod]
  set d2 := (2 * d1 + (if m6 then 1 else 0)) % 256 with hd2
  set r2 := (r1 <<< 1) % 256 with hr2
  rw [clock_bits_cons,
    clock_in_bit_mid_lit d2 r2 2 m6 (r1 &&& 0x80 != 0) (some f) tr m5 (by norm_num)]
  simp only [Nat.reduceAdd, Nat.reduceMod]
  set d3 := (2 * d2 + (if m5 then 1 else 0)) % 256 with hd3
  set r3 := (r2 <<< 1) % 256 with hr3
  rw [clock_bits_cons,
    clock_in_bit_mid_lit d3 r3 3 m5 (r2 &&& 0x80 != 0) (some f) tr m4 (by norm_num)]
  simp only [Nat.reduceAdd, Nat.reduceMod]
  set d4 := (2 * d3 + (if m4 then 1 else 0)) % 256 with hd4
  set r4 := (r3 <<< 1) % 256 with hr4
  rw [clock_bits_cons,
    clock_in_bit_mid_lit d4 r4 4 m4 (r3 &&& 0x80 != 0) (some f) tr m3 (by norm_num)]
  simp only [Nat.reduceAdd, Nat.reduceMod]
  set d5 := (2 * d4 + (if m3 then 1 else 0)) % 256 with hd5
  set r5 := (r4 <<< 1) % 256 with hr5
  rw [clock_bits_cons,
    clock_in_bit_mid_lit d5 r5 5 m3 (r4 &&& 0x80 != 0) (some f) tr m2 (by norm_num)]
  simp only [Nat.reduceAdd, Nat.reduceMod]
  set d6 := (2 * d5 + (if m2 then 1 else 0)) % 256 with hd6
  set r6 := (r5 <<< 1) % 256 with hr6
  rw [clock_bits_cons,
    clock_in_bit_mid_lit d6 r6 6 m2 (r5 &&& 0x80 != 0) (some f) tr m1 (by norm_num)]
  simp only [Nat.reduceAdd, Nat.reduceMod]
  set d7 := (2 * d6 + (if m1 then 1 else 0)) % 256 with hd7
  set r7 := (r6 <<< 1) % 256 with hr7
  rw [clock_bits_cons,
    clock_in_bit_last_lit d7 r7 7 m1 (r6 &&& 0x80 != 0) f tr m0 (by norm_num)]
  rw [clock_bits_nil]
  have hfinal : (2 * d7 + (if m0 then 1 else 0)) % 256 =
      128 * (if m7 then (1 : Nat) else 0) + 64 * (if m6 then (1 : Nat) else 0) +
      32 * (if m5 then (1 : Nat) else 0) + 16 * (if m4 then (1 : Nat) else 0) +
      8 * (if m3 then (1 : Nat) else 0) + 4 * (if m2 then (1 : Nat) else 0) +
      2 * (if m1 then (1 : Nat) else 0) + (if m0 then (1 : Nat) else 0) := by
    omega
  rw [hfinal]
  exact ⟨rfl, rfl, rfl, rfl, rfl, rfl⟩

/-- Shifting out a byte: the MISO levels observed after each of the
next eight rising edges are the bits of `data_miso`, MSB first. -/
theorem frame_out (s : SoftwareSpi) (g : Nat → Nat)
    (n7 n6 n5 n4 n3 n2 n1 n0 : Bool)
    (hcs : s.cs = false) (hclk : s.clk = false) (hbi : s.bit_index = 0)
    (hdev : s.ext_device = some g) :
    (clock_bits s [n7, n6, n5, n4, n3, n2, n1, n0]).1 =
      [s.data_miso.testBit 7, s.data_miso.testBit 6, s.data_miso.testBit 5,
       s.data_miso.testBit 4, s.data_miso.testBit 3, s.data_miso.testBit 2,
       s.data_miso.testBit 1, s.data_miso.testBit 0]  := by
  obtain ⟨dmo, dmi, bi, cs, clk, mo, mi, dev, tr⟩ := s
  dsimp only at hcs hclk hbi hdev ⊢
  subst hcs hclk hbi hdev
  rw [clock_bits_cons,
    clock_in_bit_mid_lit dmo dmi 0 mo mi (some g) tr n7 (by norm_num)]
  simp only [Nat.reduceAdd, Nat.reduceMod]
  set d1 := (2 * dmo + (if n7 then 1 else 0)) % 256 with hd1
  set r1 := (dmi <<< 1) % 256 with hr1
  rw [clock_bits_cons,
    clock_in_bit_mid_lit d1 r1 1 n7 (dmi &&& 0x80 != 0) (some g) tr n6 (by norm_num)]
  simp only [Nat.reduceAdd, Nat.reduceMod]
  set d2 := (2 * d1 + (if n6 then 1 else 0)) % 256 with hd2
  set r2 := (r1 <<< 1) % 256 with hr2
  rw [clock_bits_cons,
    clock_in_bit_mid_lit d2 r2 2 n6 (r1 &&& 0x80 != 0) (some g) tr n5 (by norm_num)]
  simp only [Nat.reduceAdd, Nat.reduceMod]
  set d3 := (2 * d2 + (if n5 then 1 else 0)) % 256 with hd3
  set r3 := (r2 <<< 1) % 256 with hr3
  rw [clock_bits_cons,
    clock_in_bit_mid_lit d3 r3 3 n5 (r2 &&& 0x80 != 0) (some g) tr n4 (by norm_num)]
  simp only [Nat.reduceAdd, Nat.reduceMod]
  set d4 := (2 * d3 + (if n4 then 1 else 0)) % 256 with hd4
  set r4 := (r3 <<< 1) % 256 with hr4
  rw [clock_bits_cons,
    clock_in_bit_mid_lit d4 r4 4 n4 (r3 &&& 0x80 != 0) (some g) tr n3 (by norm_num)]
  simp only [Nat.reduceAdd, Nat.reduceMod]
  set d5 := (2 * d4 + (if n3 then 1 else 0)) % 256 with hd5
  set r5 := (r4 <<< 1) % 256 with hr5
  rw [clock_bits_cons,
    clock_in_bit_mid_lit d5 r5 5 n3 (r4 &&& 0x80 != 0) (some g) tr n2 (by norm_num)]
  simp only [Nat.reduceAdd, Nat.reduceMod]
  set d6 := (2 * d5 + (if n2 then 1 else 0)) % 256 with hd6
  set r6 := (r5 <<< 1) % 256 with hr6
  rw [clock_bits_cons,
    clock_in_bit_mid_lit d6 r6 6 n2 (r5 &&& 0x80 != 0) (some g) tr n1 (by norm_num)]
  simp only [Nat.reduceAdd, Nat.reduceMod]
  set d7 := (2 * d6 + (if n1 then 1 else 0)) % 256 with hd7
  set r7 := (r6 <<< 1) % 256 with hr7
  rw [clock_bits_cons,
    clock_in_bit_last_lit d7 r7 7 n1 (r6 &&& 0x80 != 0) g tr n0 (by norm_num)]
  rw [clock_bits_nil]
  simp only [read_miso]
  norm_num
  refine ⟨and_bit7 dmi, ?_, ?_, ?_, ?_, ?_, ?_, ?_⟩
  · rw [hr1, and_bit7, shifted_testBit7]
  · rw [hr2, hr1, and_bit7, shifted_testBit7, shifted_testBit6]
  · rw [hr3, hr2, hr1, and_bit7, shifted_testBit7, shifted_testBit6,
      shifted_testBit5]
  · rw [hr4, hr3, hr2, hr1, and_bit7, shifted_testBit7, shifted_testBit6,
      shifted_testBit5, shifted_testBit4]
  · rw [hr5, hr4, hr3, hr2, hr1, and_bit7, shifted_testBit7, shifted_testBit6,
      shifted_testBit5, shifted_testBit4, shifted_testBit3]
  · rw [hr6, hr5, hr4, hr3, hr2, hr1, and_bit7, shifted_testBit7,
      shifted_testBit6, shifted_testBit5, shifted_testBit4, shifted_testBit3,
      shifted_testBit2]
  · rw [hr7, hr6, hr5, hr4, hr3, hr2, hr1, and_bit7, shifted_testBit7,
      shifted_testBit6, shifted_testBit5, shifted_testBit4, shifted_testBit3,
      shifted_testBit2, shifted_testBit1, Nat.testBit_zero]

end SwSpi

/-- C7: with CS low and the bit counter at 0, eight CLK rising edges
with MOSI levels m7..m0 (MSB first) issue exactly one `write` of the
byte `(m7<<7)|…|m0` to the bound device, immediately followed by
exactly one `read`; the byte that read returns replaces `data_miso` and
is shifted out on MISO MSB-first over the next eight CLK rising
edges. -/
theorem sw_spi_byte_frame (s : SwSpi.SoftwareSpi) (f : Nat → Nat)
    (m7 m6 m5 m4 m3 m2 m1 m0 n7 n6 n5 n4 n3 n2 n1 n0 : Bool)
    (hcs : s.cs = false) (hclk : s.clk = false) (hbi : s.bit_index = 0)
    (hdev : s.ext_device = some f) :
    (SwSpi.clock_bits s [m7, m6, m5, m4, m3, m2, m1, m0]).2.trace =
      s.trace ++
        [.wr (((if m7 then (1 : Nat) else 0) <<< 7) |||
              ((if m6 then (1 : Nat) else 0) <<< 6) |||
              ((if m5 then (1 : Nat) else 0) <<< 5) |||
              ((if m4 then (1 : Nat) else 0) <<< 4) |||
              ((if m3 then (1 : Nat) else 0) <<< 3) |||
              ((if m2 then (1 : Nat) else 0) <<< 2) |||
              ((if m1 then (1 : Nat) else 0) <<< 1) |||
              (if m0 then (1 : Nat) else 0)),
         .rd (f (((if m7 then (1 : Nat) else 0) <<< 7) |||
              ((if m6 then (1 : Nat) else 0) <<< 6) |||
              ((if m5 then (1 : Nat) else 0) <<< 5) |||
              ((if m4 then (1 : Nat) else 0) <<< 4) |||
              ((if m3 then (1 : Nat) else 0) <<< 3) |||
              ((if m2 then (1 : Nat) else 0) <<< 2) |||
              ((if m1 then (1 : Nat) else 0) <<< 1) |||
              (if m0 then (1 : Nat) else 0)))] ∧
    (SwSpi.clock_bits s [m7, m6, m5, m4, m3, m2, m1, m0]).2.data_miso =
      f (((if m7 then (1 : Nat) else 0) <<< 7) |||
         ((if m6 then (1 : Nat) else 0) <<< 6) |||
         ((if m5 then (1 : Nat) else 0) <<< 5) |||
         ((if m4 then (1 : Nat) else 0) <<< 4) |||
         ((if m3 then (1 : Nat) else 0) <<< 3) |||
         ((if m2 then (1 : Nat) else 0) <<< 2) |||
         ((if m1 then (1 : Nat) else 0) <<< 1) |||
         (if m0 then (1 : Nat) else 0)) ∧
    (SwSpi.clock_bits (SwSpi.clock_bits s [m7, m6, m5, m4, m3, m2, m1, m0]).2
        [n7, n6, n5, n4, n3, n2, n1, n0]).1 =
      [(f (((if m7 then (1 : Nat) else 0) <<< 7) |||
            ((if m6 then (1 : Nat) else 0) <<< 6) |||
            ((if m5 then (1 : Nat) else 0) <<< 5) |||
            ((if m4 then (1 : Nat) else 0) <<< 4) |||
            ((if m3 then (1 : Nat) else 0) <<< 3) |||
            ((if m2 then (1 : Nat) else 0) <<< 2) |||
            ((if m1 then (1 : Nat) else 0) <<< 1) |||
            (if m0 then (1 : Nat) else 0))).testBit 7, (f (((if m7 then (1 : Nat) else 0) <<< 7) |||
            ((if m6 then (1 : Nat) else 0) <<< 6) |||
            ((if m5 then (1 : Nat) else 0) <<< 5) |||
            ((if m4 then (1 : Nat) else 0) <<< 4) |||
            ((if m3 then (1 : Nat) else 0) <<< 3) |||
            ((if m2 then (1 : Nat) else 0) <<< 2) |||
            ((if m1 then (1 : Nat) else 0) <<< 1) |||
            (if m0 then (1 : Nat) else 0))).testBit 6, (f (((if m7 then (1 : Nat) else 0) <<< 7) |||
            ((if m6 then (1 : Nat) else 0) <<< 6) |||
            ((if m5 then (1 : Nat) else 0) <<< 5) |||
            ((if m4 then (1 : Nat) else 0) <<< 4) |||
            ((if m3 then (1 : Nat) else 0) <<< 3) |||
            ((if m2 then (1 : Nat) else 0) <<< 2) |||
            ((if m1 then (1 : Nat) else 0) <<< 1) |||
            (if m0 then (1 : Nat) else 0))).testBit 5, (f (((if m7 then (1 : Nat) else 0) <<< 7) |||
            ((if m6 then (1 : Nat) else 0) <<< 6) |||
            ((if m5 then (1 : Nat) else 0) <<< 5) |||
            ((if m4 then (1 : Nat) else 0) <<< 4) |||
            ((if m3 then (1 : Nat) else 0) <<< 3) |||
            ((if m2 then (1 : Nat) else 0) <<< 2) |||
            ((if m1 then (1 : Nat) else 0) <<< 1) |||
            (if m0 then (1 : Nat) else 0))).testBit 4,
       (f (((if m7 then (1 : Nat) else 0) <<< 7) |||
            ((if m6 then (1 : Nat) else 0) <<< 6) |||
            ((if m5 then (1 : Nat) else 0) <<< 5) |||
            ((if m4 then (1 : Nat) else 0) <<< 4) |||
            ((if m3 then (1 : Nat) else 0) <<< 3) |||
            ((if m2 then (1 : Nat) else 0) <<< 2) |||
            ((if m1 then (1 : Nat) else 0) <<< 1) |||
            (if m0 then (1 : Nat) else 0))).testBit 3, (f (((if m7 then (1 : Nat) else 0) <<< 7) |||
            ((if m6 then (1 : Nat) else 0) <<< 6) |||
            ((if m5 then (1 : Nat) else 0) <<< 5) |||
            ((if m4 then (1 : Nat) else 0) <<< 4) |||
            ((if m3 then (1 : Nat) else 0) <<< 3) |||
            ((if m2 then (1 : Nat) else 0) <<< 2) |||
            ((if m1 then (1 : Nat) else 0) <<< 1) |||
            (if m0 then (1 : Nat) else 0))).testBit 2, (f (((if m7 then (1 : Nat) else 0) <<< 7) |||
            ((if m6 then (1 : Nat) else 0) <<< 6) |||
            ((if m5 then (1 : Nat) else 0) <<< 5) |||
            ((if m4 then (1 : Nat) else 0) <<< 4) |||
            ((if m3 then (1 : Nat) else 0) <<< 3) |||
            ((if m2 then (1 : Nat) else 0) <<< 2) |||
            ((if m1 then (1 : Nat) else 0) <<< 1) |||
            (if m0 then (1 : Nat) else 0))).testBit 1, (f (((if m7 then (1 : Nat) else 0) <<< 7) |||
            ((if m6 then (1 : Nat) else 0) <<< 6) |||
            ((if m5 then (1 : Nat) else 0) <<< 5) |||
            ((if m4 then (1 : Nat) else 0) <<< 4) |||
            ((if m3 then (1 : Nat) else 0) <<< 3) |||
            ((if m2 then (1 : Nat) else 0) <<< 2) |||
            ((if m1 then (1 : Nat) else 0) <<< 1) |||
            (if m0 then (1 : Nat) else 0))).testBit 0] := by
  have hin := SwSpi.frame_in s f m7 m6 m5 m4 m3 m2 m1 m0 hcs hclk hbi hdev
  obtain ⟨hc1, hc2, hc3, hc4, hmi, htr⟩ := hin
  have hout := SwSpi.frame_out _ f n7 n6 n5 n4 n3 n2 n1 n0 hc1 hc2 hc3 hc4
  have hsum := SwSpi.byte_or_form m7 m6 m5 m4 m3 m2 m1 m0
  refine ⟨?_, ?_, ?_⟩
  · rw [hsum]
    exact htr
  · rw [hsum]
    exact hmi
  · rw [hout, hmi, hsum]

/-- A concrete software-SPI state for the byte-frame witness: idle
lines, zeroed shift registers, a device replying with the byte plus
one. -/
def spiS : SwSpi.SoftwareSpi :=
  ⟨0, 0, 0, false, false, false, false, some (fun b => b + 1), []⟩

/-- C7 witness: the byte-frame theorem at `spiS` with all MOSI bits
high. -/
theorem sw_spi_byte_frame_witness :
    (SwSpi.clock_bits spiS [true, true, true, true, true, true, true, true]).2.trace =
      spiS.trace ++
        [.wr (((if true then (1 : Nat) else 0) <<< 7) |||
              ((if true then (1 : Nat) else 0) <<< 6) |||
              ((if true then (1 : Nat) else 0) <<< 5) |||
              ((if true then (1 : Nat) else 0) <<< 4) |||
              ((if true then (1 : Nat) else 0) <<< 3) |||
              ((if true then (1 : Nat) else 0) <<< 2) |||
              ((if true then (1 : Nat) else 0) <<< 1) |||
              (if true then (1 : Nat) else 0)),
         .rd ((fun b => b + 1) (((if true then (1 : Nat) else 0) <<< 7) |||
              ((if true then (1 : Nat) else 0) <<< 6) |||
              ((if true then (1 : Nat) else 0) <<< 5) |||
              ((if true then (1 : Nat) else 0) <<< 4) |||
              ((if true then (1 : Nat) else 0) <<< 3) |||
              ((if true then (1 : Nat) else 0) <<< 2) |||
              ((if true then (1 : Nat) else 0) <<< 1) |||
              (if true then (1 : Nat) else 0)))] ∧
    (SwSpi.clock_bits spiS [true, true, true, true, true, true, true, true]).2.data_miso =
      (fun b => b + 1) (((if true then (1 : Nat) else 0) <<< 7) |||
         ((if true then (1 : Nat) else 0) <<< 6) |||
         ((if true then (1 : Nat) else 0) <<< 5) |||
         ((if true then (1 : Nat) else 0) <<< 4) |||
         ((if true then (1 : Nat) else 0) <<< 3) |||
         ((if true then (1 : Nat) else 0) <<< 2) |||
         ((if true then (1 : Nat) else 0) <<< 1) |||
         (if true then (1 : Nat) else 0)) ∧
    (SwSpi.clock_bits (SwSpi.clock_bits spiS [true, true, true, true, true, true, true, true]).2
        [true, true, true, true, true, true, true, true]).1 =
      [((fun b => b + 1) (((if true then (1 : Nat) else 0) <<< 7) |||
            ((if true then (1 : Nat) else 0) <<< 6) |||
            ((if true then (1 : Nat) else 0) <<< 5) |||
            ((if true then (1 : Nat) else 0) <<< 4) |||
            ((if true then (1 : Nat) else 0) <<< 3) |||
            ((if true then (1 : Nat) else 0) <<< 2) |||
            ((if true then (1 : Nat) else 0) <<< 1) |||
            (if true then (1 : Nat) else 0))).testBit 7, ((fun b => b + 1) (((if true then (1 : Nat) else 0) <<< 7) |||
            ((if true then (1 : Nat) else 0) <<< 6) |||
            ((if true then (1 : Nat) else 0) <<< 5) |||
            ((if true then (1 : Nat) else 0) <<< 4) |||
            ((if true then (1 : Nat) else 0) <<< 3) |||
            ((if true then (1 : Nat) else 0) <<< 2) |||
            ((if true then (1 : Nat) else 0) <<< 1) |||
            (if true then (1 : Nat) else 0))).testBit 6, ((fun b => b + 1) (((if true then (1 : Nat) else 0) <<< 7) |||
            ((if true then (1 : Nat) else 0) <<< 6) |||
            ((if true then (1 : Nat) else 0) <<< 5) |||
            ((if true then (1 : Nat) else 0) <<< 4) |||
            ((if true then (1 : Nat) else 0) <<< 3) |||
            ((if true then (1 : Nat) else 0) <<< 2) |||
            ((if true then (1 : Nat) else 0) <<< 1) |||
            (if true then (1 : Nat) else 0))).testBit 5, ((fun b => b + 1) (((if true then (1 : Nat) else 0) <<< 7) |||
            ((if true then (1 : Nat) else 0) <<< 6) |||
            ((if true then (1 : Nat) else 0) <<< 5) |||
            ((if true then (1 : Nat) else 0) <<< 4) |||
            ((if true then (1 : Nat) else 0) <<< 3) |||
            ((if true then (1 : Nat) else 0) <<< 2) |||
            ((if true then (1 : Nat) else 0) <<< 1) |||
            (if true then (1 : Nat) else 0))).testBit 4,
       ((fun b => b + 1) (((if true then (1 : Nat) else 0) <<< 7) |||
            ((if true then (1 : Nat) else 0) <<< 6) |||
            ((if true then (1 : Nat) else 0) <<< 5) |||
            ((if true then (1 : Nat) else 0) <<< 4) |||
            ((if true then (1 : Nat) else 0) <<< 3) |||
            ((if true then (1 : Nat) else 0) <<< 2) |||
            ((if true then (1 : Nat) else 0) <<< 1) |||
            (if true then (1 : Nat) else 0))).testBit 3, ((fun b => b + 1) (((if true then (1 : Nat) else 0) <<< 7) |||
            ((if true then (1 : Nat) else 0) <<< 6) |||
            ((if true then (1 : Nat) else 0) <<< 5) |||
            ((if true then (1 : Nat) else 0) <<< 4) |||
            ((if true then (1 : Nat) else 0) <<< 3) |||
            ((if true then (1 : Nat) else 0) <<< 2) |||
            ((if true then (1 : Nat) else 0) <<< 1) |||
            (if true then (1 : Nat) else 0))).testBit 2, ((fun b => b + 1) (((if true then (1 : Nat) else 0) <<< 7) |||
            ((if true then (1 : Nat) else 0) <<< 6) |||
            ((if true then (1 : Nat) else 0) <<< 5) |||
            ((if true then (1 : Nat) else 0) <<< 4) |||
            ((if true then (1 : Nat) else 0) <<< 3) |||
            ((if true then (1 : Nat) else 0) <<< 2) |||
            ((if true then (1 : Nat) else 0) <<< 1) |||
            (if true then (1 : Nat) else 0))).testBit 1, ((fun b => b + 1) (((if true then (1 : Nat) else 0) <<< 7) |||
            ((if true then (1 : Nat) else 0) <<< 6) |||
            ((if true then (1 : Nat) else 0) <<< 5) |||
            ((if true then (1 : Nat) else 0) <<< 4) |||
            ((if true then (1 : Nat) else 0) <<< 3) |||
            ((if true then (1 : Nat) else 0) <<< 2) |||
            ((if true then (1 : Nat) else 0) <<< 1) |||
            (if true then (1 : Nat) else 0))).testBit 0] :=
  sw_spi_byte_frame spiS (fun b => b + 1) true true true true true true true true
    true true true true true true true true rfl rfl rfl rfl


namespace Nvic

/-- The CPU-host registers the interrupt controller touches
(`unicorn_engine::RegisterARM` members used in `peripherals/nvic.rs`).
Unicorn's SP/MSP/PSP all alias the active stack pointer; the model
collapses them into the single `sp`. -/
inductive Reg where
  | r0 | r1 | r2 | r3 | r12 | lr | pc | xpsr | ipsr | sp | control | primask
  | fpscr
  | s0 | s1 | s2 | s3 | s4 | s5 | s6 | s7
  | s8 | s9 | s10 | s11 | s12 | s13 | s14 | s15
deriving DecidableEq, Repr

/-- `Nvic::CONTEXT_REGS`: the basic frame, push order (highest address
first). -/
def CONTEXT_REGS : List Reg := [.xpsr, .pc, .lr, .r12, .r3, .r2, .r1, .r0]

/-- `Nvic::CONTEXT_REGS_EXTENDED`: the FP extension of the frame. -/
def CONTEXT_REGS_EXTENDED : List Reg :=
  [.fpscr, .s15, .s14, .s13, .s12, .s11, .s10, .s9,
   .s8, .s7, .s6, .s5, .s4, .s3, .s2, .s1, .s0]

/-- Register-file update (`uc.reg_write`). -/
def setReg (regs : Reg → Nat) (r : Reg) (v : Nat) : Reg → Nat :=
  fun x => if x = r then v else regs x

/-- One byte store; memory holds bytes. -/
def writeByte (m : Nat → Nat) (a v : Nat) : Nat → Nat :=
  fun x => if x = a then v % 256 else m x

/-- `uc.mem_write(a, &v.to_le_bytes())` for a `u32` value. -/
def writeWord (m : Nat → Nat) (a v : Nat) : Nat → Nat :=
  writeByte (writeByte (writeByte (writeByte m a v)
    (a + 1) (v >>> 8)) (a + 2) (v >>> 16)) (a + 3) (v >>> 24)

/-- `u32::from_le_bytes` of 4 bytes read at `a`. -/
def readWord (m : Nat → Nat) (a : Nat) : Nat :=
  m a % 256 + 256 * (m (a + 1) % 256) + 65536 * (m (a + 2) % 256) +
    16777216 * (m (a + 3) % 256)

/-- The CPU-host state the controller manipulates: the register file
(`u64` values) and byte memory. -/
structure Machine where
  regs : Reg → Nat
  mem : Nat → Nat

/-- The `push_reg` closure inside `Nvic::push_regs`: decrement the
stack pointer by 4 (`u64` wrap) and store the register's low 32 bits.
The running `sp` local of the source is folded into the `sp` register,
which `push_regs` writes back at the end anyway. -/
def pushOne (m : Machine) (r : Reg) : Machine :=
  let sp := (m.regs .sp + (2 ^ 64 - 4)) % 2 ^ 64
  { regs := setReg m.regs .sp sp,
    mem := writeWord m.mem sp (m.regs r % 2 ^ 32) }

/-- `Nvic::push_regs`: push the extended frame when `fpca`, then the
basic frame; `spsel` selects MSP/PSP, which the model collapses. -/
def push_regs (m : Machine) (_spsel fpca : Bool) : Machine :=
  ((if fpca then CONTEXT_REGS_EXTENDED else []) ++ CONTEXT_REGS).foldl pushOne m

/-- The `pop_reg` closure inside `Nvic::pop_regs`: load 4 bytes at the
stack pointer into the register, then increment the pointer. -/
def popOne (m : Machine) (r : Reg) : Machine :=
  let sp := m.regs .sp
  { regs := setReg (setReg m.regs r (readWord m.mem sp)) .sp ((sp + 4) % 2 ^ 64),
    mem := m.mem }

/-- `Nvic::pop_regs`: pop the basic frame in reverse order, then the
extended frame when `fpca`. -/
def pop_regs (m : Machine) (_spsel fpca : Bool) : Machine :=
  let m := CONTEXT_REGS.reverse.foldl popOne m
  if fpca then CONTEXT_REGS_EXTENDED.reverse.foldl popOne m else m

/-- `struct Nvic`: 128-bit pending set, in-interrupt flag, SysTick
timing state. -/
structure Nvic where
  systick_period : Option Nat
  last_systick_trigger : Nat
  pending : Nat
  in_interrupt : Bool

/-- `Nvic::get_and_clear_next_intr_pending`, returning the raw pending
BIT index (`bit = IRQ_OFFSET + irq`, so `irq = bit - 16`); the caller
only ever uses `16 + irq = bit` again arithmetically. -/
def get_and_clear_next_intr_pending (n : Nvic) : Option Nat × Nvic :=
  if n.pending ≠ 0 then
    let bit := Gpio.trailingZeros n.pending
    (some bit, { n with pending := n.pending &&& ((2 ^ 128 - 1) ^^^ (1 <<< bit)) })
  else
    (none, n)

/-- `Nvic::maybe_set_systick_intr_pending`; `num_instructions` is the
global `NUM_INSTRUCTIONS` counter.  SysTick's pending bit is
`IRQ_OFFSET + SYSTICK = 16 - 1 = 15`. -/
def maybe_set_systick_intr_pending (n : Nvic) (num_instructions : Nat) : Nvic :=
  match n.systick_period with
  | some systick_period =>
    if num_instructions - n.last_systick_trigger > systick_period then
      { n with last_systick_trigger := num_instructions,
               pending := n.pending ||| (1 <<< 15) }
    else n
  | none => n

/-- `Nvic::are_interrupts_disabled`: PRIMASK ≠ 0. -/
def are_interrupts_disabled (m : Machine) : Bool :=
  decide (m.regs .primask ≠ 0)

/-- `Nvic::read_vector_addr`: 4 bytes at
`vector_table_addr + 4*(IRQ_OFFSET + irq)` (`u32` arithmetic). -/
def read_vector_addr (m : Machine) (vector_table_addr bit : Nat) : Nat :=
  readWord m.mem ((vector_table_addr + 4 * bit) % 2 ^ 32)

/-- `Nvic::run_interrupt`: read the handler address, decode
CONTROL.SPSEL (bit 1) and CONTROL.FPCA (bit 2, `2 << 1`), push the
context, install the EXC_RETURN pattern in LR (base 0xFFFF_FFE9, bit 2
for SPSEL, bit 4 for a basic frame), set IPSR to `irq as u64` (the
64-bit two's-complement encoding of `bit - 16`) and PC to the handler,
and mark
`in_interrupt`. -/
def run_interrupt (n : Nvic) (m : Machine) (vector_table_addr bit : Nat) :
    Nvic × Machine :=
  let vector := read_vector_addr m vector_table_addr bit
  let control_reg := m.regs .control
  let spsel := control_reg &&& (1 <<< 1) ≠ 0
  let fpca := control_reg &&& (2 <<< 1) ≠ 0
  let m := push_regs m spsel fpca
  let lr : Nat := 0xFFFFFFE9
  let lr := if spsel then lr ||| 0x4 else lr
  let lr := if ¬ fpca then lr ||| 0x10 else lr
  let m := { m with regs := setReg m.regs .lr lr }
  let m := { m with regs := setReg m.regs .ipsr ((bit + (2 ^ 64 - 16)) % 2 ^ 64) }
  let m := { m with regs := setReg m.regs .pc vector }
  ({ n with in_interrupt := true }, m)

/-- `Nvic::run_pending_interrupts`: tick SysTick, bail when PRIMASK is
set or already in an interrupt, otherwise pop the lowest pending IRQ
and dispatch it. -/
def run_pending_interrupts (n : Nvic) (m : Machine)
    (vector_table_addr num_instructions : Nat) : Nvic × Machine :=
  let n := maybe_set_systick_intr_pending n num_instructions
  if are_interrupts_disabled m ∨ n.in_interrupt then (n, m)
  else
    match get_and_clear_next_intr_pending n with
    | (some bit, n) => run_interrupt n m vector_table_addr bit
    | (none, n) => (n, m)

/-- `Nvic::return_from_interrupt`: decode SPSEL/FPCA from LR when it
holds an EXC_RETURN pattern (bit 4 = 1 means basic frame), else from
CONTROL; pop the context, rebuild CONTROL on the EXC_RETURN path, and
clear `in_interrupt`. -/
def return_from_interrupt (n : Nvic) (m : Machine) : Nvic × Machine :=
  let lr := m.regs .lr
  let m :=
    if lr &&& 0xFFFFFF00 = 0xFFFFFF00 then
      let spsel := lr &&& 0x4 ≠ 0
      let fpca := lr &&& 0x10 = 0
      let m := pop_regs m spsel fpca
      let control_reg : Nat :=
        (if spsel then (1 <<< 1 : Nat) else 0) ||| (if fpca then (2 <<< 1 : Nat) else 0)
      { m with regs := setReg m.regs .control control_reg }
    else
      let control_reg := m.regs .control
      let spsel := control_reg &&& (1 <<< 1) ≠ 0
      let fpca := control_reg &&& (2 <<< 1) ≠ 0
      pop_regs m spsel fpca
  ({ n with in_interrupt := false }, m)

/-- Reading a register just written. -/
theorem setReg_same (regs : Reg → Nat) (r : Reg) (v : Nat) :
    setReg regs r v r = v := by
  simp [setReg]

/-- Reading another register. -/
theorem setReg_other (regs : Reg → Nat) (r : Reg) (v : Nat) (x : Reg)
    (h : x ≠ r) : setReg regs r v x = regs x := by
  simp [setReg, h]

/-- A byte outside the stored word is unchanged. -/
theorem writeWord_other (m : Nat → Nat) (a v x : Nat)
    (h : x ≠ a ∧ x ≠ a + 1 ∧ x ≠ a + 2 ∧ x ≠ a + 3) :
    writeWord m a v x = m x := by
  unfold writeWord writeByte
  rw [if_neg h.2.2.2, if_neg h.2.2.1, if_neg h.2.1, if_neg h.1]

/-- Reading back the word just stored. -/
theorem readWord_writeWord_self (m : Nat → Nat) (a v : Nat) (hv : v < 2 ^ 32) :
    readWord (writeWord m a v) a = v := by
  have h0 : writeWord m a v a = v % 256 := by
    unfold writeWord writeByte
    rw [if_neg (by omega : ¬ a = a + 3), if_neg (by omega : ¬ a = a + 2),
      if_neg (by omega : ¬ a = a + 1), if_pos rfl]
  have h1 : writeWord m a v (a + 1) = (v >>> 8) % 256 := by
    unfold writeWord writeByte
    rw [if_neg (by omega : ¬ a + 1 = a + 3), if_neg (by omega : ¬ a + 1 = a + 2),
      if_pos rfl]
  have h2 : writeWord m a v (a + 2) = (v >>> 16) % 256 := by
    unfold writeWord writeByte
    rw [if_neg (by omega : ¬ a + 2 = a + 3), if_pos rfl]
  have h3 : writeWord m a v (a + 3) = (v >>> 24) % 256 := by
    unfold writeWord writeByte
    rw [if_pos rfl]
  unfold readWord
  rw [h0, h1, h2, h3, Nat.shiftRight_eq_div_pow, Nat.shiftRight_eq_div_pow,
    Nat.shiftRight_eq_div_pow]
  norm_num
  omega

/-- Reading a word disjoint from the stored one. -/
theorem readWord_writeWord_disjoint (m : Nat → Nat) (a v b : Nat)
    (h : a + 4 ≤ b ∨ b + 4 ≤ a) :
    readWord (writeWord m a v) b = readWord m b := by
  unfold readWord
  rw [writeWord_other m a v b (by omega),
    writeWord_other m a v (b + 1) (by omega),
    writeWord_other m a v (b + 2) (by omega),
    writeWord_other m a v (b + 3) (by omega)]

/-- Overwriting the same register twice. -/
theorem setReg_setReg (f : Reg → Nat) (r : Reg) (a b : Nat) :
    setReg (setReg f r a) r b = setReg f r b := by
  funext x
  by_cases h : x = r <;> simp [setReg, h]

/-- `pushOne` without the `u64` wrap, for an in-range stack pointer. -/
theorem pushOne_eq (m : Machine) (r : Reg) (sp : Nat) (hsp : m.regs .sp = sp)
    (h4 : 4 ≤ sp) (hlt : sp < 2 ^ 64) :
    pushOne m r = { regs := setReg m.regs .sp (sp - 4),
                    mem := writeWord m.mem (sp - 4) (m.regs r % 2 ^ 32) } := by
  unfold pushOne
  rw [hsp, show (sp + (2 ^ 64 - 4)) % 2 ^ 64 = sp - 4 from by omega]

/-- `popOne` without the `u64` wrap, for an in-range stack pointer. -/
theorem popOne_eq (m : Machine) (r : Reg) (sp : Nat) (hsp : m.regs .sp = sp)
    (hlt : sp + 4 < 2 ^ 64) :
    popOne m r = { regs := setReg (setReg m.regs r (readWord m.mem sp)) .sp (sp + 4),
                   mem := m.mem } := by
  unfold popOne
  rw [hsp]
  show ({ regs := setReg (setReg m.regs r (readWord m.mem sp)) .sp ((sp + 4) % 2 ^ 64),
          mem := m.mem } : Machine) = _
  rw [show (sp + 4) % 2 ^ 64 = sp + 4 from by omega]


/-- Distinct registers may be written in either order. -/
theorem setReg_comm (f : Reg → Nat) (ra rb : Reg) (a b : Nat) (h : ra ≠ rb) :
    setReg (setReg f ra a) rb b = setReg (setReg f rb b) ra a := by
  funext x
  by_cases h1 : x = ra <;> by_cases h2 : x = rb <;> simp_all [setReg]

/-- A word read only looks at its own four bytes. -/
theorem readWord_congr (m1 m2 : Nat → Nat) (lo hi b : Nat)
    (h : ∀ a, lo ≤ a → a < hi → m1 a = m2 a)
    (h1 : lo ≤ b) (h2 : b + 4 ≤ hi) : readWord m1 b = readWord m2 b := by
  unfold readWord
  rw [h b (by omega) (by omega), h (b + 1) (by omega) (by omega),
    h (b + 2) (by omega) (by omega), h (b + 3) (by omega) (by omega)]

/-- `pop_regs` with a basic frame: the eight context registers are
reloaded from `[T, T+32)` in reverse push order and SP rises to
`T + 32`. -/
theorem pop_regs_basic (m : Machine) (spsel : Bool) (T : Nat)
    (hsp : m.regs .sp = T) (hT : T + 32 < 2 ^ 64) :
    pop_regs m spsel false =
      { regs := setReg (setReg (setReg (setReg (setReg (setReg (setReg (setReg (setReg m.regs Reg.r0 (readWord m.mem T)) Reg.r1 (readWord m.mem (T + 4))) Reg.r2 (readWord m.mem (T + 8))) Reg.r3 (readWord m.mem (T + 12))) Reg.r12 (readWord m.mem (T + 16))) Reg.lr (readWord m.mem (T + 20))) Reg.pc (readWord m.mem (T + 24))) Reg.xpsr (readWord m.mem (T + 28))) Reg.sp (T + 32), mem := m.mem } := by
  unfold pop_regs CONTEXT_REGS
  simp only [Bool.false_eq_true, if_false, List.reverse_cons, List.reverse_nil,
    List.nil_append, List.cons_append, List.foldl_cons, List.foldl_nil]
  rw [popOne_eq m .r0 T hsp (by omega)]
  rw [popOne_eq _ .r1 (T + 4) (by simp [setReg]) (by omega)]
  simp only [Nat.add_assoc, Nat.reduceAdd]
  rw [setReg_comm _ .sp .r1 _ _ (by decide)]
  rw [setReg_setReg]
  rw [popOne_eq _ .r2 (T + 8) (by simp [setReg]) (by omega)]
  simp only [Nat.add_assoc, Nat.reduceAdd]
  rw [setReg_comm _ .sp .r2 _ _ (by decide)]
  rw [setReg_setReg]
  rw [popOne_eq _ .r3 (T + 12) (by simp [setReg]) (by omega)]
  simp only [Nat.add_assoc, Nat.reduceAdd]
  rw [setReg_comm _ .sp .r3 _ _ (by decide)]
  rw [setReg_setReg]
  rw [popOne_eq _ .r12 (T + 16) (by simp [setReg]) (by omega)]
  simp only [Nat.add_assoc, Nat.reduceAdd]
  rw [setReg_comm _ .sp .r12 _ _ (by decide)]
  rw [setReg_setReg]
  rw [popOne_eq _ .lr (T + 20) (by simp [setReg]) (by omega)]
  simp only [Nat.add_assoc, Nat.reduceAdd]
  rw [setReg_comm _ .sp .lr _ _ (by decide)]
  rw [setReg_setReg]
  rw [popOne_eq _ .pc (T + 24) (by simp [setReg]) (by omega)]
  simp only [Nat.add_assoc, Nat.reduceAdd]
  rw [setReg_comm _ .sp .pc _ _ (by decide)]
  rw [setReg_setReg]
  rw [popOne_eq _ .xpsr (T + 28) (by simp [setReg]) (by omega)]
  simp only [Nat.add_assoc, Nat.reduceAdd]
  rw [setReg_comm _ .sp .xpsr _ _ (by decide)]
  rw [setReg_setReg]

/-- `push_regs` with a basic frame: the eight context registers land at
`[S-32, S)` with XPSR highest, and SP drops to `S - 32`. -/
theorem push_regs_basic (m : Machine) (spsel : Bool) (S : Nat)
    (hsp : m.regs .sp = S) (hS : 32 ≤ S) (hS2 : S < 2 ^ 64) :
    push_regs m spsel false =
      { regs := setReg m.regs .sp (S - 32),
        mem := writeWord (writeWord (writeWord (writeWord (writeWord (writeWord (writeWord (writeWord (m.mem) (S - 4) (m.regs Reg.xpsr % 2 ^ 32)) (S - 8) (m.regs Reg.pc % 2 ^ 32)) (S - 12) (m.regs Reg.lr % 2 ^ 32)) (S - 16) (m.regs Reg.r12 % 2 ^ 32)) (S - 20) (m.regs Reg.r3 % 2 ^ 32)) (S - 24) (m.regs Reg.r2 % 2 ^ 32)) (S - 28) (m.regs Reg.r1 % 2 ^ 32)) (S - 32) (m.regs Reg.r0 % 2 ^ 32) } := by
  unfold push_regs CONTEXT_REGS
  simp only [Bool.false_eq_true, if_false, List.nil_append, List.foldl_cons,
    List.foldl_nil]
  rw [pushOne_eq m .xpsr S hsp (by omega) (by omega)]
  rw [pushOne_eq _ .pc (S - 4) (by simp [setReg]) (by omega) (by omega)]
  simp only [Nat.sub_sub, Nat.reduceAdd]
  rw [setReg_other m.regs .sp (S - 4) .pc (by decide)]
  rw [setReg_setReg]
  rw [pushOne_eq _ .lr (S - 8) (by simp [setReg]) (by omega) (by omega)]
  simp only [Nat.sub_sub, Nat.reduceAdd]
  rw [setReg_other m.regs .sp (S - 8) .lr (by decide)]
  rw [setReg_setReg]
  rw [pushOne_eq _ .r12 (S - 12) (by simp [setReg]) (by omega) (by omega)]
  simp only [Nat.sub_sub, Nat.reduceAdd]
  rw [setReg_other m.regs .sp (S - 12) .r12 (by decide)]
  rw [setReg_setReg]
  rw [pushOne_eq _ .r3 (S - 16) (by simp [setReg]) (by omega) (by omega)]
  simp only [Nat.sub_sub, Nat.reduceAdd]
  rw [setReg_other m.regs .sp (S - 16) .r3 (by decide)]
  rw [setReg_setReg]
  rw [pushOne_eq _ .r2 (S - 20) (by simp [setReg]) (by omega) (by omega)]
  simp only [Nat.sub_sub, Nat.reduceAdd]
  rw [setReg_other m.regs .sp (S - 20) .r2 (by decide)]
  rw [setReg_setReg]
  rw [pushOne_eq _ .r1 (S - 24) (by simp [setReg]) (by omega) (by omega)]
  simp only [Nat.sub_sub, Nat.reduceAdd]
  rw [setReg_other m.regs .sp (S - 24) .r1 (by decide)]
  rw [setReg_setReg]
  rw [pushOne_eq _ .r0 (S - 28) (by simp [setReg]) (by omega) (by omega)]
  simp only [Nat.sub_sub, Nat.reduceAdd]
  rw [setReg_other m.regs .sp (S - 28) .r0 (by decide)]
  rw [setReg_setReg]

/-- A number with a nonzero `lor`-operand is nonzero. -/
theorem lor_left_ne_zero (x y : Nat) (h : x ≠ 0) : x ||| y ≠ 0 := by
  intro hc
  apply h
  apply Nat.eq_of_testBit_eq
  intro i
  have hb : (x ||| y).testBit i = (0 : Nat).testBit i := by rw [hc]
  rw [Nat.testBit_or, Nat.zero_testBit] at hb
  rw [Nat.zero_testBit]
  exact (Bool.or_eq_false_iff.mp hb).1

/-- The SysTick tick never clears `in_interrupt` or an already-pending
interrupt. -/
theorem maybe_set_systick_facts (n : Nvic) (ni : Nat) :
    (maybe_set_systick_intr_pending n ni).in_interrupt = n.in_interrupt ∧
    (n.pending ≠ 0 → (maybe_set_systick_intr_pending n ni).pending ≠ 0) := by
  cases hsys : n.systick_period with
  | none =>
    simp [maybe_set_systick_intr_pending, hsys]
  | some p =>
    simp only [maybe_set_systick_intr_pending, hsys]
    by_cases hgt : ni - n.last_systick_trigger > p
    · rw [if_pos hgt]
      exact ⟨rfl, fun h => lor_left_ne_zero _ _ h⟩
    · rw [if_neg hgt]
      exact ⟨rfl, fun h => h⟩

/-- `run_interrupt` with CONTROL.FPCA clear: push the basic frame, drop
SP by 32, install EXC_RETURN (bit 4 set) in LR, and point PC at the
handler. -/
theorem run_interrupt_basic (n : Nvic) (m : Machine) (vt bit S : Nat)
    (hfpca : m.regs .control &&& (2 <<< 1) = 0)
    (hsp : m.regs .sp = S) (hS : 32 ≤ S) (hS2 : S < 2 ^ 64) :
    run_interrupt n m vt bit =
      ({ n with in_interrupt := true },
       { regs := setReg (setReg (setReg (setReg m.regs .sp (S - 32))
             .lr ((if m.regs .control &&& (1 <<< 1) ≠ 0 then
                 (0xFFFFFFE9 : Nat) ||| 0x4 else 0xFFFFFFE9) ||| 0x10))
             .ipsr ((bit + (2 ^ 64 - 16)) % 2 ^ 64))
             .pc (read_vector_addr m vt bit),
         mem := writeWord (writeWord (writeWord (writeWord (writeWord (writeWord (writeWord (writeWord m.mem (S - 4) (m.regs Reg.xpsr % 2 ^ 32)) (S - 8) (m.regs Reg.pc % 2 ^ 32)) (S - 12) (m.regs Reg.lr % 2 ^ 32)) (S - 16) (m.regs Reg.r12 % 2 ^ 32)) (S - 20) (m.regs Reg.r3 % 2 ^ 32)) (S - 24) (m.regs Reg.r2 % 2 ^ 32)) (S - 28) (m.regs Reg.r1 % 2 ^ 32)) (S - 32) (m.regs Reg.r0 % 2 ^ 32) }) := by
  have hnot : ¬ (m.regs .control &&& (2 <<< 1) ≠ 0) := by simpa using hfpca
  have hfpca4 : m.regs .control &&& 4 = 0 := by simpa using hfpca
  simp only [run_interrupt]
  rw [show (decide (m.regs .control &&& (2 <<< 1) ≠ 0) : Bool) = false from by
    simp [hfpca4]]
  rw [push_regs_basic m _ S hsp hS hS2]
  rw [if_pos hnot]

/-- `return_from_interrupt` when LR holds an EXC_RETURN pattern with
bit 4 set (basic frame): the eight context registers are reloaded from
`[T, T+32)`, SP rises to `T + 32`, and `in_interrupt` clears. -/
theorem return_basic_frame (nd : Nvic) (m' : Machine) (T L : Nat)
    (hL1 : L &&& 0xFFFFFF00 = 0xFFFFFF00) (hL2 : ¬ L &&& 0x10 = 0)
    (hsp' : m'.regs .sp = T) (hlr' : m'.regs .lr = L)
    (hT : T + 32 < 2 ^ 64) :
    (return_from_interrupt nd m').1.in_interrupt = false ∧
    (return_from_interrupt nd m').2.regs .sp = T + 32 ∧
    (return_from_interrupt nd m').2.regs .r0 = readWord m'.mem T ∧
    (return_from_interrupt nd m').2.regs .r1 = readWord m'.mem (T + 4) ∧
    (return_from_interrupt nd m').2.regs .r2 = readWord m'.mem (T + 8) ∧
    (return_from_interrupt nd m').2.regs .r3 = readWord m'.mem (T + 12) ∧
    (return_from_interrupt nd m').2.regs .r12 = readWord m'.mem (T + 16) ∧
    (return_from_interrupt nd m').2.regs .lr = readWord m'.mem (T + 20) ∧
    (return_from_interrupt nd m').2.regs .pc = readWord m'.mem (T + 24) ∧
    (return_from_interrupt nd m').2.regs .xpsr = readWord m'.mem (T + 28) := by
  have hpop := pop_regs_basic m' (decide (L &&& 0x4 ≠ 0)) T hsp' hT
  simp only [return_from_interrupt]
  rw [hlr']
  rw [if_pos hL1]
  rw [show (decide (L &&& 0x10 = 0) : Bool) = false from by simp [hL2]]
  rw [hpop]
  refine ⟨trivial, ?_, ?_, ?_, ?_, ?_, ?_, ?_, ?_, ?_⟩ <;> simp [setReg]

/-- With PRIMASK clear, not already in an interrupt, and a pending bit
set, `run_pending_interrupts` dispatches the lowest pending bit. -/
theorem run_pending_dispatch (n : Nvic) (m : Machine) (vt ni : Nat)
    (hpm : m.regs .primask = 0) (hii : n.in_interrupt = false)
    (hpend : n.pending ≠ 0) :
    run_pending_interrupts n m vt ni =
      run_interrupt
        { maybe_set_systick_intr_pending n ni with
          pending := (maybe_set_systick_intr_pending n ni).pending &&&
            ((2 ^ 128 - 1) ^^^
              (1 <<< Gpio.trailingZeros
                (maybe_set_systick_intr_pending n ni).pending)) }
        m vt (Gpio.trailingZeros (maybe_set_systick_intr_pending n ni).pending) := by
  obtain ⟨hii1, hpend1⟩ := maybe_set_systick_facts n ni
  simp only [run_pending_interrupts]
  rw [if_neg (show ¬ (are_interrupts_disabled m = true ∨
      (maybe_set_systick_intr_pending n ni).in_interrupt = true) from by
    simp [are_interrupts_disabled, hpm, hii1, hii])]
  simp only [get_and_clear_next_intr_pending]
  rw [if_pos (hpend1 hpend)]

end Nvic

/-- C8: with PRIMASK clear, `in_interrupt` false, a pending interrupt and
CONTROL.FPCA clear, dispatch pushes the basic frame XPSR, PC, LR, R12,
R3, R2, R1, R0 (XPSR at the highest address) into `[S-32, S)` and sets
SP to `S - 32`; and an exception-exit pop from any handler state that
kept the frame memory, SP and LR restores SP to `S` and R0-R3, R12, LR,
PC and XPSR to their pre-dispatch values. -/
theorem nvic_frame_round_trip (n : Nvic.Nvic) (m m' : Nvic.Machine)
    (vt ni S : Nat)
    (hpm : m.regs .primask = 0)
    (hii : n.in_interrupt = false)
    (hpend : n.pending ≠ 0)
    (hfpca : m.regs .control &&& (2 <<< 1) = 0)
    (hsp : m.regs .sp = S)
    (hS : 32 ≤ S) (hS2 : S < 2 ^ 64)
    (hb : ∀ r ∈ Nvic.CONTEXT_REGS, m.regs r < 2 ^ 32)
    (hm'mem : ∀ a, S - 32 ≤ a → a < S →
      m'.mem a = (Nvic.run_pending_interrupts n m vt ni).2.mem a)
    (hm'sp : m'.regs .sp = (Nvic.run_pending_interrupts n m vt ni).2.regs .sp)
    (hm'lr : m'.regs .lr = (Nvic.run_pending_interrupts n m vt ni).2.regs .lr) :
    (Nvic.run_pending_interrupts n m vt ni).1.in_interrupt = true ∧
    (Nvic.run_pending_interrupts n m vt ni).2.regs .sp = S - 32 ∧
    (Nvic.readWord (Nvic.run_pending_interrupts n m vt ni).2.mem (S - 4) = m.regs .xpsr ∧
     Nvic.readWord (Nvic.run_pending_interrupts n m vt ni).2.mem (S - 8) = m.regs .pc ∧
     Nvic.readWord (Nvic.run_pending_interrupts n m vt ni).2.mem (S - 12) = m.regs .lr ∧
     Nvic.readWord (Nvic.run_pending_interrupts n m vt ni).2.mem (S - 16) = m.regs .r12 ∧
     Nvic.readWord (Nvic.run_pending_interrupts n m vt ni).2.mem (S - 20) = m.regs .r3 ∧
     Nvic.readWord (Nvic.run_pending_interrupts n m vt ni).2.mem (S - 24) = m.regs .r2 ∧
     Nvic.readWord (Nvic.run_pending_interrupts n m vt ni).2.mem (S - 28) = m.regs .r1 ∧
     Nvic.readWord (Nvic.run_pending_interrupts n m vt ni).2.mem (S - 32) = m.regs .r0) ∧
    (Nvic.return_from_interrupt (Nvic.run_pending_interrupts n m vt ni).1 m').2.regs .sp = S ∧
    ((Nvic.return_from_interrupt (Nvic.run_pending_interrupts n m vt ni).1 m').2.regs .r0 = m.regs .r0 ∧
     (Nvic.return_from_interrupt (Nvic.run_pending_interrupts n m vt ni).1 m').2.regs .r1 = m.regs .r1 ∧
     (Nvic.return_from_interrupt (Nvic.run_pending_interrupts n m vt ni).1 m').2.regs .r2 = m.regs .r2 ∧
     (Nvic.return_from_interrupt (Nvic.run_pending_interrupts n m vt ni).1 m').2.regs .r3 = m.regs .r3 ∧
     (Nvic.return_from_interrupt (Nvic.run_pending_interrupts n m vt ni).1 m').2.regs .r12 = m.regs .r12 ∧
     (Nvic.return_from_interrupt (Nvic.run_pending_interrupts n m vt ni).1 m').2.regs .lr = m.regs .lr ∧
     (Nvic.return_from_interrupt (Nvic.run_pending_interrupts n m vt ni).1 m').2.regs .pc = m.regs .pc ∧
     (Nvic.return_from_interrupt (Nvic.run_pending_interrupts n m vt ni).1 m').2.regs .xpsr = m.regs .xpsr) ∧
    (Nvic.return_from_interrupt (Nvic.run_pending_interrupts n m vt ni).1 m').1.in_interrupt = false := by
  have hdis := Nvic.run_pending_dispatch n m vt ni hpm hii hpend
  rw [hdis] at hm'mem hm'sp hm'lr ⊢
  rw [Nvic.run_interrupt_basic _ m vt _ S hfpca hsp hS hS2]
    at hm'mem hm'sp hm'lr ⊢
  dsimp only at hm'mem hm'sp hm'lr ⊢
  rw [Nvic.setReg_other _ .pc _ .sp (by decide),
    Nvic.setReg_other _ .ipsr _ .sp (by decide),
    Nvic.setReg_other _ .lr _ .sp (by decide), Nvic.setReg_same] at hm'sp
  rw [Nvic.setReg_other _ .pc _ .lr (by decide),
    Nvic.setReg_other _ .ipsr _ .lr (by decide), Nvic.setReg_same] at hm'lr
  have hL1 : m'.regs .lr &&& 0xFFFFFF00 = 0xFFFFFF00 := by
    rw [hm'lr]
    by_cases hPc : m.regs .control &&& (1 <<< 1) ≠ 0
    · rw [if_pos hPc]; decide
    · rw [if_neg hPc]; decide
  have hL2 : ¬ m'.regs .lr &&& 0x10 = 0 := by
    rw [hm'lr]
    by_cases hPc : m.regs .control &&& (1 <<< 1) ≠ 0
    · rw [if_pos hPc]; decide
    · rw [if_neg hPc]; decide
  refine ⟨rfl, ?_, ⟨?_, ?_, ?_, ?_, ?_, ?_, ?_, ?_⟩, ?_,
    ⟨?_, ?_, ?_, ?_, ?_, ?_, ?_, ?_⟩, ?_⟩
  · simp [Nvic.setReg]
  · rw [Nvic.readWord_writeWord_disjoint _ (S - 32) _ (S - 4) (by omega)]
    rw [Nvic.readWord_writeWord_disjoint _ (S - 28) _ (S - 4) (by omega)]
    rw [Nvic.readWord_writeWord_disjoint _ (S - 24) _ (S - 4) (by omega)]
    rw [Nvic.readWord_writeWord_disjoint _ (S - 20) _ (S - 4) (by omega)]
    rw [Nvic.readWord_writeWord_disjoint _ (S - 16) _ (S - 4) (by omega)]
    rw [Nvic.readWord_writeWord_disjoint _ (S - 12) _ (S - 4) (by omega)]
    rw [Nvic.readWord_writeWord_disjoint _ (S - 8) _ (S - 4) (by omega)]
    rw [Nvic.readWord_writeWord_self _ (S - 4) (m.regs Nvic.Reg.xpsr % 2 ^ 32) (by omega)]
    exact Nat.mod_eq_of_lt (hb Nvic.Reg.xpsr (by decide))
  · rw [Nvic.readWord_writeWord_disjoint _ (S - 32) _ (S - 8) (by omega)]
    rw [Nvic.readWord_writeWord_disjoint _ (S - 28) _ (S - 8) (by omega)]
    rw [Nvic.readWord_writeWord_disjoint _ (S - 24) _ (S - 8) (by omega)]
    rw [Nvic.readWord_writeWord_disjoint _ (S - 20) _ (S - 8) (by omega)]
    rw [Nvic.readWord_writeWord_disjoint _ (S - 16) _ (S - 8) (by omega)]
    rw [Nvic.readWord_writeWord_disjoint _ (S - 12) _ (S - 8) (by omega)]
    rw [Nvic.readWord_writeWord_self _ (S - 8) (m.regs Nvic.Reg.pc % 2 ^ 32) (by omega)]
    exact Nat.mod_eq_of_lt (hb Nvic.Reg.pc (by decide))
  · rw [Nvic.readWord_writeWord_disjoint _ (S - 32) _ (S - 12) (by omega)]
    rw [Nvic.readWord_writeWord_disjoint _ (S - 28) _ (S - 12) (by omega)]
    rw [Nvic.readWord_writeWord_disjoint _ (S - 24) _ (S - 12) (by omega)]
    rw [Nvic.readWord_writeWord_disjoint _ (S - 20) _ (S - 12) (by omega)]
    rw [Nvic.readWord_writeWord_disjoint _ (S - 16) _ (S - 12) (by omega)]
    rw [Nvic.readWord_writeWord_self _ (S - 12) (m.regs Nvic.Reg.lr % 2 ^ 32) (by omega)]
    exact Nat.mod_eq_of_lt (hb Nvic.Reg.lr (by decide))
  · rw [Nvic.readWord_writeWord_disjoint _ (S - 32) _ (S - 16) (by omega)]
    rw [Nvic.readWord_writeWord_disjoint _ (S - 28) _ (S - 16) (by omega)]
    rw [Nvic.readWord_writeWord_disjoint _ (S - 24) _ (S - 16) (by omega)]
    rw [Nvic.readWord_writeWord_disjoint _ (S - 20) _ (S - 16) (by omega)]
    rw [Nvic.readWord_writeWord_self _ (S - 16) (m.regs Nvic.Reg.r12 % 2 ^ 32) (by omega)]
    exact Nat.mod_eq_of_lt (hb Nvic.Reg.r12 (by decide))
  · rw [Nvic.readWord_writeWord_disjoint _ (S - 32) _ (S - 20) (by omega)]
    rw [Nvic.readWord_writeWord_disjoint _ (S - 28) _ (S - 20) (by omega)]
    rw [Nvic.readWord_writeWord_disjoint _ (S - 24) _ (S - 20) (by omega)]
    rw [Nvic.readWord_writeWord_self _ (S - 20) (m.regs Nvic.Reg.r3 % 2 ^ 32) (by omega)]
    exact Nat.mod_eq_of_lt (hb Nvic.Reg.r3 (by decide))
  · rw [Nvic.readWord_writeWord_disjoint _ (S - 32) _ (S - 24) (by omega)]
    rw [Nvic.readWord_writeWord_disjoint _ (S - 28) _ (S - 24) (by omega)]
    rw [Nvic.readWord_writeWord_self _ (S - 24) (m.regs Nvic.Reg.r2 % 2 ^ 32) (by omega)]
    exact Nat.mod_eq_of_lt (hb Nvic.Reg.r2 (by decide))
  · rw [Nvic.readWord_writeWord_disjoint _ (S - 32) _ (S - 28) (by omega)]
    rw [Nvic.readWord_writeWord_self _ (S - 28) (m.regs Nvic.Reg.r1 % 2 ^ 32) (by omega)]
    exact Nat.mod_eq_of_lt (hb Nvic.Reg.r1 (by decide))
  · rw [Nvic.readWord_writeWord_self _ (S - 32) (m.regs Nvic.Reg.r0 % 2 ^ 32) (by omega)]
    exact Nat.mod_eq_of_lt (hb Nvic.Reg.r0 (by decide))
  · rw [(Nvic.return_basic_frame _ m' (S - 32) (m'.regs .lr) hL1 hL2 hm'sp rfl (by omega)).2.1]
    omega
  · rw [(Nvic.return_basic_frame _ m' (S - 32) (m'.regs .lr) hL1 hL2 hm'sp rfl (by omega)).2.2.1]
    rw [Nvic.readWord_congr m'.mem _ (S - 32) S (S - 32) hm'mem (by omega) (by omega)]
    rw [Nvic.readWord_writeWord_self _ (S - 32) (m.regs Nvic.Reg.r0 % 2 ^ 32) (by omega)]
    exact Nat.mod_eq_of_lt (hb Nvic.Reg.r0 (by decide))
  · rw [(Nvic.return_basic_frame _ m' (S - 32) (m'.regs .lr) hL1 hL2 hm'sp rfl (by omega)).2.2.2.1]
    rw [show S - 32 + 4 = S - 28 from by omega]
    rw [Nvic.readWord_congr m'.mem _ (S - 32) S (S - 28) hm'mem (by omega) (by omega)]
    rw [Nvic.readWord_writeWord_disjoint _ (S - 32) _ (S - 28) (by omega)]
    rw [Nvic.readWord_writeWord_self _ (S - 28) (m.regs Nvic.Reg.r1 % 2 ^ 32) (by omega)]
    exact Nat.mod_eq_of_lt (hb Nvic.Reg.r1 (by decide))
  · rw [(Nvic.return_basic_frame _ m' (S - 32) (m'.regs .lr) hL1 hL2 hm'sp rfl (by omega)).2.2.2.2.1]
    rw [show S - 32 + 8 = S - 24 from by omega]
    rw [Nvic.readWord_congr m'.mem _ (S - 32) S (S - 24) hm'mem (by omega) (by omega)]
    rw [Nvic.readWord_writeWord_disjoint _ (S - 32) _ (S - 24) (by omega)]
    rw [Nvic.readWord_writeWord_disjoint _ (S - 28) _ (S - 24) (by omega)]
    rw [Nvic.readWord_writeWord_self _ (S - 24) (m.regs Nvic.Reg.r2 % 2 ^ 32) (by omega)]
    exact Nat.mod_eq_of_lt (hb Nvic.Reg.r2 (by decide))
  · rw [(Nvic.return_basic_frame _ m' (S - 32) (m'.regs .lr) hL1 hL2 hm'sp rfl (by omega)).2.2.2.2.2.1]
    rw [show S - 32 + 12 = S - 20 from by omega]
    rw [Nvic.readWord_congr m'.mem _ (S - 32) S (S - 20) hm'mem (by omega) (by omega)]
    rw [Nvic.readWord_writeWord_disjoint _ (S - 32) _ (S - 20) (by omega)]
    rw [Nvic.readWord_writeWord_disjoint _ (S - 28) _ (S - 20) (by omega)]
    rw [Nvic.readWord_writeWord_disjoint _ (S - 24) _ (S - 20) (by omega)]
    rw [Nvic.readWord_writeWord_self _ (S - 20) (m.regs Nvic.Reg.r3 % 2 ^ 32) (by omega)]
    exact Nat.mod_eq_of_lt (hb Nvic.Reg.r3 (by decide))
  · rw [(Nvic.return_basic_frame _ m' (S - 32) (m'.regs .lr) hL1 hL2 hm'sp rfl (by omega)).2.2.2.2.2.2.1]
    rw [show S - 32 + 16 = S - 16 from by omega]
    rw [Nvic.readWord_congr m'.mem _ (S - 32) S (S - 16) hm'mem (by omega) (by omega)]
    rw [Nvic.readWord_writeWord_disjoint _ (S - 32) _ (S - 16) (by omega)]
    rw [Nvic.readWord_writeWord_disjoint _ (S - 28) _ (S - 16) (by omega)]
    rw [Nvic.readWord_writeWord_disjoint _ (S - 24) _ (S - 16) (by omega)]
    rw [Nvic.readWord_writeWord_disjoint _ (S - 20) _ (S - 16) (by omega)]
    rw [Nvic.readWord_writeWord_self _ (S - 16) (m.regs Nvic.Reg.r12 % 2 ^ 32) (by omega)]
    exact Nat.mod_eq_of_lt (hb Nvic.Reg.r12 (by decide))
  · rw [(Nvic.return_basic_frame _ m' (S - 32) (m'.regs .lr) hL1 hL2 hm'sp rfl (by omega)).2.2.2.2.2.2.2.1]
    rw [show S - 32 + 20 = S - 12 from by omega]
    rw [Nvic.readWord_congr m'.mem _ (S - 32) S (S - 12) hm'mem (by omega) (by omega)]
    rw [Nvic.readWord_writeWord_disjoint _ (S - 32) _ (S - 12) (by omega)]
    rw [Nvic.readWord_writeWord_disjoint _ (S - 28) _ (S - 12) (by omega)]
    rw [Nvic.readWord_writeWord_disjoint _ (S - 24) _ (S - 12) (by omega)]
    rw [Nvic.readWord_writeWord_disjoint _ (S - 20) _ (S - 12) (by omega)]
    rw [Nvic.readWord_writeWord_disjoint _ (S - 16) _ (S - 12) (by omega)]
    rw [Nvic.readWord_writeWord_self _ (S - 12) (m.regs Nvic.Reg.lr % 2 ^ 32) (by omega)]
    exact Nat.mod_eq_of_lt (hb Nvic.Reg.lr (by decide))
  · rw [(Nvic.return_basic_frame _ m' (S - 32) (m'.regs .lr) hL1 hL2 hm'sp rfl (by omega)).2.2.2.2.2.2.2.2.1]
    rw [show S - 32 + 24 = S - 8 from by omega]
    rw [Nvic.readWord_congr m'.mem _ (S - 32) S (S - 8) hm'mem (by omega) (by omega)]
    rw [Nvic.readWord_writeWord_disjoint _ (S - 32) _ (S - 8) (by omega)]
    rw [Nvic.readWord_writeWord_disjoint _ (S - 28) _ (S - 8) (by omega)]
    rw [Nvic.readWord_writeWord_disjoint _ (S - 24) _ (S - 8) (by omega)]
    rw [Nvic.readWord_writeWord_disjoint _ (S - 20) _ (S - 8) (by omega)]
    rw [Nvic.readWord_writeWord_disjoint _ (S - 16) _ (S - 8) (by omega)]
    rw [Nvic.readWord_writeWord_disjoint _ (S - 12) _ (S - 8) (by omega)]
    rw [Nvic.readWord_writeWord_self _ (S - 8) (m.regs Nvic.Reg.pc % 2 ^ 32) (by omega)]
    exact Nat.mod_eq_of_lt (hb Nvic.Reg.pc (by decide))
  · rw [(Nvic.return_basic_frame _ m' (S - 32) (m'.regs .lr) hL1 hL2 hm'sp rfl (by omega)).2.2.2.2.2.2.2.2.2]
    rw [show S - 32 + 28 = S - 4 from by omega]
    rw [Nvic.readWord_congr m'.mem _ (S - 32) S (S - 4) hm'mem (by omega) (by omega)]
    rw [Nvic.readWord_writeWord_disjoint _ (S - 32) _ (S - 4) (by omega)]
    rw [Nvic.readWord_writeWord_disjoint _ (S - 28) _ (S - 4) (by omega)]
    rw [Nvic.readWord_writeWord_disjoint _ (S - 24) _ (S - 4) (by omega)]
    rw [Nvic.readWord_writeWord_disjoint _ (S - 20) _ (S - 4) (by omega)]
    rw [Nvic.readWord_writeWord_disjoint _ (S - 16) _ (S - 4) (by omega)]
    rw [Nvic.readWord_writeWord_disjoint _ (S - 12) _ (S - 4) (by omega)]
    rw [Nvic.readWord_writeWord_disjoint _ (S - 8) _ (S - 4) (by omega)]
    rw [Nvic.readWord_writeWord_self _ (S - 4) (m.regs Nvic.Reg.xpsr % 2 ^ 32) (by omega)]
    exact Nat.mod_eq_of_lt (hb Nvic.Reg.xpsr (by decide))
  · exact (Nvic.return_basic_frame _ m' (S - 32) (m'.regs .lr) hL1 hL2 hm'sp rfl (by omega)).1

/-- A concrete pending interrupt (bit 0) dispatched from SP = 64 on a
zeroed machine, with the handler leaving the dispatched state untouched. -/
def nvicW : Nvic.Nvic := ⟨none, 0, 1, false⟩

/-- The pre-dispatch machine for the round-trip witness. -/
def machW : Nvic.Machine :=
  ⟨fun r => if r = .sp then 64 else 0, fun _ => 0⟩

/-- The handler-exit machine of the witness: exactly the dispatched
state. -/
def machW' : Nvic.Machine := (Nvic.run_pending_interrupts nvicW machW 0 0).2

theorem nvic_frame_round_trip_witness :
    (Nvic.run_pending_interrupts nvicW machW 0 0).1.in_interrupt = true ∧
    (Nvic.run_pending_interrupts nvicW machW 0 0).2.regs .sp = 64 - 32 ∧
    (Nvic.readWord (Nvic.run_pending_interrupts nvicW machW 0 0).2.mem (64 - 4) = machW.regs .xpsr ∧
     Nvic.readWord (Nvic.run_pending_interrupts nvicW machW 0 0).2.mem (64 - 8) = machW.regs .pc ∧
     Nvic.readWord (Nvic.run_pending_interrupts nvicW machW 0 0).2.mem (64 - 12) = machW.regs .lr ∧
     Nvic.readWord (Nvic.run_pending_interrupts nvicW machW 0 0).2.mem (64 - 16) = machW.regs .r12 ∧
     Nvic.readWord (Nvic.run_pending_interrupts nvicW machW 0 0).2.mem (64 - 20) = machW.regs .r3 ∧
     Nvic.readWord (Nvic.run_pending_interrupts nvicW machW 0 0).2.mem (64 - 24) = machW.regs .r2 ∧
     Nvic.readWord (Nvic.run_pending_interrupts nvicW machW 0 0).2.mem (64 - 28) = machW.regs .r1 ∧
     Nvic.readWord (Nvic.run_pending_interrupts nvicW machW 0 0).2.mem (64 - 32) = machW.regs .r0) ∧
    (Nvic.return_from_interrupt (Nvic.run_pending_interrupts nvicW machW 0 0).1 machW').2.regs .sp = 64 ∧
    ((Nvic.return_from_interrupt (Nvic.run_pending_interrupts nvicW machW 0 0).1 machW').2.regs .r0 = machW.regs .r0 ∧
     (Nvic.return_from_interrupt (Nvic.run_pending_interrupts nvicW machW 0 0).1 machW').2.regs .r1 = machW.regs .r1 ∧
     (Nvic.return_from_interrupt (Nvic.run_pending_interrupts nvicW machW 0 0).1 machW').2.regs .r2 = machW.regs .r2 ∧
     (Nvic.return_from_interrupt (Nvic.run_pending_interrupts nvicW machW 0 0).1 machW').2.regs .r3 = machW.regs .r3 ∧
     (Nvic.return_from_interrupt (Nvic.run_pending_interrupts nvicW machW 0 0).1 machW').2.regs .r12 = machW.regs .r12 ∧
     (Nvic.return_from_interrupt (Nvic.run_pending_interrupts nvicW machW 0 0).1 machW').2.regs .lr = machW.regs .lr ∧
     (Nvic.return_from_interrupt (Nvic.run_pending_interrupts nvicW machW 0 0).1 machW').2.regs .pc = machW.regs .pc ∧
     (Nvic.return_from_interrupt (Nvic.run_pending_interrupts nvicW machW 0 0).1 machW').2.regs .xpsr = machW.regs .xpsr) ∧
    (Nvic.return_from_interrupt (Nvic.run_pending_interrupts nvicW machW 0 0).1 machW').1.in_interrupt = false :=
  nvic_frame_round_trip nvicW machW machW' 0 0 64 (by decide) rfl (by decide)
    (by decide) (by decide) (by decide) (by decide) (by decide)
    (fun a _ _ => rfl) rfl rfl


/-- C2: a register-space sub-word read shifts the aligned word LEFT by
`8·(addr % 4)` (`<< (8*byte_offset)` in the source), not right: with the
word 0x12345678 stored at 0x4000_0000, a 1-byte read at 0x4000_0001
yields 0x34567800, while the claim's `(word >> 8·off) & mask(size)`
yields 0x56. -/
theorem subword_read_bug_eval :
    Peripherals.read
      [⟨0x40000000, 0x40000400, fun off => if off = 0 then 0x12345678 else 0⟩]
      0x40000001 1 = some 0x34567800 ∧
    (0x34567800 : Nat) ≠ (0x12345678 >>> 8) &&& 0xFF := by
  decide

